import Mathlib

/-!
Verification of the qhft-system trading core against its specification.

The Go sources are shallowly embedded: Go float64 prices become `ℚ`
(every price arithmetic exercised by the verified properties is exact in
binary floating point, so the rational semantics agrees with the float
semantics on them), Go int64 quantities become `Int`, `time.Time` values
become abstract `Int` instants supplied by the caller (each public
operation takes the clock sample(s) the Go code draws via `time.Now()`),
Go maps become association lists iterated in list order, and fallible Go
calls return `Except`.  The `DataSource` Go interface is modelled as a
structure of behaviour functions; the trading engine's view of its data
manager (`GetPrimaryDataSource` followed by `GetRealTimeQuote`) is
modelled by `QuoteEnv`.
-/

/-- Association-list lookup, mirroring Go map indexing `m[k]`. -/
def lookupA {α : Type} (m : List (String × α)) (k : String) : Option α :=
  match m with
  | [] => none
  | (k₁, v) :: rest => if k₁ = k then some v else lookupA rest k

/-- Association-list insert/replace, mirroring Go map assignment `m[k] = v`. -/
def insertA {α : Type} (m : List (String × α)) (k : String) (v : α) : List (String × α) :=
  match m with
  | [] => [(k, v)]
  | (k₁, v₁) :: rest => if k₁ = k then (k, v) :: rest else (k₁, v₁) :: insertA rest k v

/-- Association-list delete, mirroring Go `delete(m, k)`. -/
def eraseA {α : Type} (m : List (String × α)) (k : String) : List (String × α) :=
  match m with
  | [] => []
  | (k₁, v₁) :: rest => if k₁ = k then rest else (k₁, v₁) :: eraseA rest k

theorem lookupA_insertA_self {α : Type} (m : List (String × α)) (k : String) (v : α) :
    lookupA (insertA m k v) k = some v := by
  induction m with
  | nil => simp [insertA, lookupA]
  | cons hd tl ih =>
    obtain ⟨k₁, v₁⟩ := hd
    by_cases h : k₁ = k
    · simp [insertA, lookupA, h]
    · simp [insertA, lookupA, h, ih]

theorem lookupA_insertA_ne {α : Type} (m : List (String × α)) (k k' : String) (v : α)
    (h : k ≠ k') : lookupA (insertA m k v) k' = lookupA m k' := by
  induction m with
  | nil => simp [insertA, lookupA, h]
  | cons hd tl ih =>
    obtain ⟨k₁, v₁⟩ := hd
    by_cases h₁ : k₁ = k
    · subst h₁
      simp [insertA, lookupA, h]
    · simp only [insertA, if_neg h₁]
      by_cases h₂ : k₁ = k'
      · simp [lookupA, h₂]
      · simp [lookupA, h₂, ih]

theorem eraseA_insertA_of_lookup_none {α : Type} (m : List (String × α)) (k : String) (v : α)
    (h : lookupA m k = none) : eraseA (insertA m k v) k = m := by
  induction m with
  | nil => simp [insertA, eraseA]
  | cons hd tl ih =>
    obtain ⟨k₁, v₁⟩ := hd
    by_cases h₁ : k₁ = k
    · simp [lookupA, h₁] at h
    · simp only [lookupA, if_neg h₁] at h
      simp [insertA, eraseA, h₁, ih h]

theorem mem_eraseA {α : Type} {m : List (String × α)} {k : String} {x : String × α}
    (h : x ∈ eraseA m k) : x ∈ m := by
  induction m with
  | nil => simp [eraseA] at h
  | cons hd tl ih =>
    obtain ⟨k₁, v₁⟩ := hd
    by_cases h₁ : k₁ = k
    · simp only [eraseA, if_pos h₁] at h
      exact List.mem_cons_of_mem _ h
    · simp only [eraseA, if_neg h₁, List.mem_cons] at h
      rcases h with h | h
      · exact h ▸ List.mem_cons_self _ _
      · exact List.mem_cons_of_mem _ (ih h)

theorem mem_insertA {α : Type} {m : List (String × α)} {k : String} {v : α} {x : String × α}
    (h : x ∈ insertA m k v) : x = (k, v) ∨ x ∈ m := by
  induction m with
  | nil => simpa [insertA] using h
  | cons hd tl ih =>
    obtain ⟨k₁, v₁⟩ := hd
    by_cases h₁ : k₁ = k
    · simp only [insertA, if_pos h₁, List.mem_cons] at h
      rcases h with h | h
      · exact Or.inl h
      · exact Or.inr (List.mem_cons_of_mem _ h)
    · simp only [insertA, if_neg h₁, List.mem_cons] at h
      rcases h with h | h
      · exact Or.inr (h ▸ List.mem_cons_self _ _)
      · rcases ih h with h' | h'
        · exact Or.inl h'
        · exact Or.inr (List.mem_cons_of_mem _ h')

/-! ## Data-source layer (`pkg/datasource`) -/

/-- `datasource.StockData`: one OHLCV bar (pkg/datasource types). -/
structure StockData where
  symbol : String
  timestamp : Int
  openPrice : ℚ
  high : ℚ
  low : ℚ
  close : ℚ
  volume : Int
  vwap : ℚ
  transactionID : String
deriving DecidableEq, Repr

/-- `datasource.Quote`: a real-time quote snapshot. -/
structure Quote where
  symbol : String
  timestamp : Int
  askPrice : ℚ
  askSize : Int
  bidPrice : ℚ
  bidSize : Int
  lastPrice : ℚ
  lastSize : Int
  transactionID : String
deriving DecidableEq, Repr

/-- A value of the Go `datasource.DataSource` interface, modelled by the
behaviour of the methods the verified code paths call. -/
structure DataSourceB where
  name : String
  enabled : Bool
  getRealTimeQuote : String → Except String Quote
  getStockData : String → String → Int → Int → Except String (List StockData)

/-- The trading engine's and watchlist's view of their data manager:
`GetPrimaryDataSource` either fails or yields a data source. -/
structure QuoteEnv where
  getPrimaryDataSource : Except String DataSourceB

/-- `datasource.Manager`: the named source collection plus the primary name.
Go map iteration is modelled by list order. -/
structure Manager where
  dataSources : List (String × DataSourceB)
  primary : String

/-- Error outcomes of `Manager.GetStockData`. -/
inductive FetchError where
  | allFailed (lastErr : String)
  | noSourcesAvailable
deriving DecidableEq, Repr

/-- The fallback loop of `Manager.GetStockData` (engine.go's manager.go lines
206–225): try every source other than the primary that is enabled, return the
first success, remember the last error. -/
def fallbackLoop (primary symbol timeframe : String) (tFrom tTo : Int) :
    List (String × DataSourceB) → Option String → Except FetchError (List StockData)
  | [], lastErr =>
    match lastErr with
    | some e => .error (.allFailed e)
    | none => .error .noSourcesAvailable
  | (name, ds) :: rest, lastErr =>
    if name = primary ∨ ¬ ds.enabled then
      fallbackLoop primary symbol timeframe tFrom tTo rest lastErr
    else
      match ds.getStockData symbol timeframe tFrom tTo with
      | .ok data => .ok data
      | .error e => fallbackLoop primary symbol timeframe tFrom tTo rest (some e)

/-- `Manager.GetStockData` (manager.go lines 186–226): try the enabled primary
first, then fall through the remaining enabled sources; cite the last fallback
failure, or report that no data sources were available. -/
def Manager.getStockData (m : Manager) (symbol timeframe : String) (tFrom tTo : Int) :
    Except FetchError (List StockData) :=
  let firstTry :=
    match lookupA m.dataSources m.primary with
    | some pds =>
      if pds.enabled then
        match pds.getStockData symbol timeframe tFrom tTo with
        | .ok data => some data
        | .error _ => none
      else none
    | none => none
  match firstTry with
  | some data => .ok data
  | none => fallbackLoop m.primary symbol timeframe tFrom tTo m.dataSources none

/-! ## Trading engine data model (`pkg/trading/types.go`) -/

/-- Order status constants (types.go). Go declares them as string constants. -/
def OrderStatusPending : String := "pending"

def OrderStatusSubmitted : String := "submitted"

def OrderStatusAccepted : String := "accepted"

def OrderStatusRejected : String := "rejected"

def OrderStatusFilled : String := "filled"

def OrderStatusPartial : String := "partial"

def OrderStatusCanceled : String := "canceled"

def OrderStatusExpired : String := "expired"

/-- Order type constants (types.go). -/
def OrderTypeMarket : String := "market"

def OrderTypeLimit : String := "limit"

def OrderTypeStop : String := "stop"

/-- Order side constants (types.go). -/
def OrderSideBuy : String := "buy"

def OrderSideSell : String := "sell"

/-- `trading.Order` (types.go).  Time fields are abstract `Int` instants. -/
structure Order where
  id : String
  symbol : String
  quantity : Int
  filledQty : Int
  price : ℚ
  stopPrice : ℚ
  otype : String
  side : String
  status : String
  createdAt : Int
  updatedAt : Int
  filledAt : Option Int
  avgFillPrice : ℚ
  commission : ℚ
deriving DecidableEq, Repr

instance : Inhabited Order :=
  ⟨{ id := "", symbol := "", quantity := 0, filledQty := 0, price := 0, stopPrice := 0,
     otype := "", side := "", status := "", createdAt := 0, updatedAt := 0,
     filledAt := none, avgFillPrice := 0, commission := 0 }⟩

/-- `trading.Position` (types.go). -/
structure Position where
  symbol : String
  quantity : Int
  entryPrice : ℚ
  currentPrice : ℚ
  marketValue : ℚ
  cost : ℚ
  unrealizedPnL : ℚ
  pnlPercent : ℚ
  openedAt : Int
  updatedAt : Int
  stopLoss : ℚ
  takeProfit : ℚ
deriving DecidableEq, Repr

/-- `trading.Account` (types.go), restricted to the fields the verified
operations read or write (`SubmitOrder`/`updatePosition` touch only
`RealizedPnL`; the remaining fields are carried along unchanged). -/
structure Account where
  id : String
  cash : ℚ
  buyingPower : ℚ
  equity : ℚ
  realizedPnL : ℚ
  unrealizedPnL : ℚ
  totalPnL : ℚ
  updatedAt : Int
deriving DecidableEq, Repr

/-- `trading.Trade` (types.go): a closed round trip. -/
structure Trade where
  id : String
  symbol : String
  entryOrder : Order
  exitOrder : Option Order
  entryPrice : ℚ
  exitPrice : ℚ
  quantity : Int
  realizedPnL : ℚ
  realizedPnLPercent : ℚ
  commission : ℚ
  openedAt : Int
  closedAt : Option Int
  holdTime : ℚ
deriving DecidableEq, Repr

/-- `trading.TradingLimits` (types.go). -/
structure TradingLimits where
  maxPositions : Int
  maxPositionSizePercent : ℚ
  maxDailyTrades : Int
  stopLossPercent : ℚ
  takeProfitPercent : ℚ
deriving DecidableEq, Repr

/-- The mutable state of `trading.BaseTradingEngine` (engine.go lines 57–69):
the enabled flag, the limits, and the order/position/account/trade stores. -/
structure EngineState where
  enabled : Bool
  limits : TradingLimits
  orders : List (String × Order)
  positions : List (String × Position)
  account : Account
  trades : List Trade
deriving DecidableEq, Repr

/-- The sentinel error values of engine.go lines 14–25 (plus the wrapped
cancel-rejection error of `CancelOrder`). -/
inductive TradingError where
  | tradeDisabled
  | invalidSymbol
  | invalidQuantity
  | invalidPrice
  | invalidOrderType
  | invalidOrderSide
  | orderNotFound
  | tradeLimitExceeded (maxPositions : Int)
  | cannotCancelStatus (status : String)
deriving DecidableEq, Repr

/-- `BaseTradingEngine.updatePosition` (engine.go lines 487–594), applied to a
state.  `now` is the instant the Go code samples via `time.Now()` inside the
method.  The Go code dereferences `order.FilledAt` on the paths that reach it;
every caller fills that field first, and the model totalizes the read with
`Option.getD 0`.  The Go hold-time conversion to hours is kept as the raw
instant difference (no claim observes its scale). -/
def updatePosition (st : EngineState) (order : Order) (now : Int) : EngineState :=
  if order.status ≠ OrderStatusFilled then st
  else
    let symbol := order.symbol
    if order.side = OrderSideBuy then
      let pos : Position :=
        match lookupA st.positions symbol with
        | none =>
          let p : Position :=
            { symbol := symbol
              quantity := order.filledQty
              entryPrice := order.avgFillPrice
              currentPrice := order.avgFillPrice
              marketValue := 0
              cost := (order.filledQty : ℚ) * order.avgFillPrice
              unrealizedPnL := 0
              pnlPercent := 0
              openedAt := order.filledAt.getD 0
              updatedAt := now
              stopLoss := 0
              takeProfit := 0 }
          let p :=
            if st.limits.stopLossPercent > 0 then
              { p with stopLoss := p.entryPrice * (1 - st.limits.stopLossPercent / 100) }
            else p
          if st.limits.takeProfitPercent > 0 then
            { p with takeProfit := p.entryPrice * (1 + st.limits.takeProfitPercent / 100) }
          else p
        | some pos0 =>
          let totalQuantity := pos0.quantity + order.filledQty
          let totalCost := pos0.cost + (order.filledQty : ℚ) * order.avgFillPrice
          let p :=
            { pos0 with
              quantity := totalQuantity
              cost := totalCost
              entryPrice := totalCost / (totalQuantity : ℚ)
              currentPrice := order.avgFillPrice
              updatedAt := now }
          let p :=
            if st.limits.stopLossPercent > 0 then
              { p with stopLoss := p.entryPrice * (1 - st.limits.stopLossPercent / 100) }
            else p
          if st.limits.takeProfitPercent > 0 then
            { p with takeProfit := p.entryPrice * (1 + st.limits.takeProfitPercent / 100) }
          else p
      if pos.quantity > 0 then
        let pos := { pos with marketValue := (pos.quantity : ℚ) * pos.currentPrice }
        let pos :=
          { pos with
            unrealizedPnL := pos.marketValue - pos.cost
            pnlPercent := (pos.currentPrice / pos.entryPrice - 1) * 100 }
        { st with positions := insertA st.positions symbol pos }
      else st
    else
      match lookupA st.positions symbol with
      | none => st
      | some pos0 =>
        let pos : Position :=
          { pos0 with
            quantity := pos0.quantity - order.filledQty
            currentPrice := order.avgFillPrice
            updatedAt := now }
        let realizedPnL := (order.filledQty : ℚ) * (order.avgFillPrice - pos.entryPrice)
        let st :=
          { st with account :=
              { st.account with realizedPnL := st.account.realizedPnL + realizedPnL } }
        if pos.quantity ≤ 0 then
          let closedTime := order.filledAt.getD 0
          let holdTimeHours : ℚ := ((closedTime - pos.openedAt : Int) : ℚ)
          let trade : Trade :=
            { id := "trade-" ++ toString now
              symbol := symbol
              entryOrder := (lookupA st.orders order.id).getD default
              exitOrder := some order
              entryPrice := pos.entryPrice
              exitPrice := order.avgFillPrice
              quantity := order.filledQty
              realizedPnL := realizedPnL
              realizedPnLPercent := (order.avgFillPrice / pos.entryPrice - 1) * 100
              commission := order.commission
              openedAt := pos.openedAt
              closedAt := some closedTime
              holdTime := holdTimeHours }
          let st := { st with trades := st.trades ++ [trade] }
          { st with positions := eraseA st.positions symbol }
        else
          let st := { st with positions := insertA st.positions symbol pos }
          let pos := { pos with marketValue := (pos.quantity : ℚ) * pos.currentPrice }
          let pos :=
            { pos with
              unrealizedPnL := pos.marketValue - pos.cost
              pnlPercent := (pos.currentPrice / pos.entryPrice - 1) * 100 }
          { st with positions := insertA st.positions symbol pos }

/-- The order record `SubmitOrder` constructs (engine.go lines 168–179),
before it is flipped to `accepted`. -/
def newOrder (now : Int) (symbol : String) (quantity : Int) (price : ℚ)
    (orderType orderSide : String) : Order :=
  { id := "order-" ++ toString now
    symbol := symbol
    quantity := quantity
    filledQty := 0
    price := price
    stopPrice := 0
    otype := orderType
    side := orderSide
    status := OrderStatusPending
    createdAt := now
    updatedAt := now
    filledAt := none
    avgFillPrice := 0
    commission := 0 }

/-- The mutation `SubmitOrder` applies to a market order when the quote
succeeds (engine.go lines 198–203). -/
def markFilled (o : Order) (fillPrice : ℚ) (filledTime : Int) : Order :=
  { o with
    status := OrderStatusFilled
    filledQty := o.quantity
    avgFillPrice := fillPrice
    filledAt := some filledTime
    updatedAt := filledTime }

/-- `BaseTradingEngine.SubmitOrder` (engine.go lines 124–215).  `now` is the
instant the Go code samples via `time.Now()` during the call (the generated
order id is `fmt.Sprintf` of its nanosecond count). -/
def submitOrder (st : EngineState) (env : QuoteEnv) (now : Int) (symbol : String)
    (quantity : Int) (price : ℚ) (orderType : String) (orderSide : String) :
    Except TradingError Order × EngineState :=
  if !st.enabled then (.error .tradeDisabled, st)
  else if symbol = "" then (.error .invalidSymbol, st)
  else if quantity ≤ 0 then (.error .invalidQuantity, st)
  else if price < 0 ∧ orderType ≠ OrderTypeMarket then (.error .invalidPrice, st)
  else if ¬ (orderType = OrderTypeMarket ∨ orderType = OrderTypeLimit ∨
      orderType = OrderTypeStop) then (.error .invalidOrderType, st)
  else if ¬ (orderSide = OrderSideBuy ∨ orderSide = OrderSideSell) then
    (.error .invalidOrderSide, st)
  else if orderSide = OrderSideBuy ∧ (st.positions.length : Int) ≥ st.limits.maxPositions then
    (.error (.tradeLimitExceeded st.limits.maxPositions), st)
  else
    let order := newOrder now symbol quantity price orderType orderSide
    let order := { order with status := OrderStatusAccepted }
    let st := { st with orders := insertA st.orders order.id order }
    if orderType = OrderTypeMarket then
      match env.getPrimaryDataSource with
      | .error _ => (.ok order, st)
      | .ok ds =>
        match ds.getRealTimeQuote symbol with
        | .error _ => (.ok order, st)
        | .ok q =>
          let order := markFilled order q.lastPrice now
          let st := updatePosition st order now
          let st := { st with orders := insertA st.orders order.id order }
          (.ok order, st)
    else (.ok order, st)

/-- `BaseTradingEngine.CancelOrder` (engine.go lines 218–245). -/
def cancelOrder (st : EngineState) (now : Int) (orderID : String) :
    Except TradingError Unit × EngineState :=
  if !st.enabled then (.error .tradeDisabled, st)
  else
    match lookupA st.orders orderID with
    | none => (.error .orderNotFound, st)
    | some order =>
      if order.status = OrderStatusFilled ∨ order.status = OrderStatusCanceled ∨
          order.status = OrderStatusRejected then
        (.error (.cannotCancelStatus order.status), st)
      else
        let order := { order with status := OrderStatusCanceled, updatedAt := now }
        (.ok (), { st with orders := insertA st.orders orderID order })

/-- `BaseTradingEngine.GetPositions` (engine.go lines 299–309): the stored
position values, in map-iteration (list) order. -/
def getPositions (st : EngineState) : List Position :=
  st.positions.map Prod.snd

/-- `BaseTradingEngine.GetPosition` (engine.go lines 312–322). -/
def getPosition (st : EngineState) (symbol : String) : Except String Position :=
  match lookupA st.positions symbol with
  | none => .error ("no position found for symbol " ++ symbol)
  | some p => .ok p

/-! ## Watchlist (`pkg/trading/watchlist.go`) -/

/-- Watchlist item status constants (watchlist.go lines 17–23). -/
def WatchStatusActive : String := "active"

def WatchStatusTriggered : String := "triggered"

def WatchStatusExpired : String := "expired"

def WatchStatusInvalid : String := "invalid"

/-- `trading.WatchlistItem` (watchlist.go lines 26–44), scan-result payloads
elided (no verified path reads them). -/
structure WatchlistItem where
  id : String
  symbol : String
  targetPrice : ℚ
  stopLoss : ℚ
  takeProfit : ℚ
  quantity : Int
  status : String
  addedAt : Int
  updatedAt : Int
  expiresAt : Option Int
  triggeredAt : Option Int
  strategy : String
  notes : String
  tags : List String
  orderID : String
  isBuyList : Bool
deriving DecidableEq, Repr

/-- The mutable item store of `trading.Watchlist` (watchlist.go lines 47–52). -/
structure WatchlistState where
  items : List (String × WatchlistItem)
deriving DecidableEq, Repr

/-- `Watchlist.UpdateItem` (watchlist.go lines 122–140). -/
def updateItem (w : WatchlistState) (now : Int) (id : String)
    (updatedItem : WatchlistItem) : Except String Unit × WatchlistState :=
  match lookupA w.items id with
  | none => (.error ("item with ID " ++ id ++ " not found"), w)
  | some item =>
    let u :=
      { updatedItem with
        id := item.id
        addedAt := item.addedAt
        updatedAt := now }
    (.ok (), { w with items := insertA w.items id u })

/-- `Watchlist.GetActiveItems` (watchlist.go lines 169–181). -/
def getActiveItems (w : WatchlistState) : List WatchlistItem :=
  (w.items.map Prod.snd).filter (fun it => it.status == WatchStatusActive)

/-- Outcome of one iteration of the `ScanWatchlist` loop body for one item:
no state change, or the item marked expired, or the item fired. -/
inductive ScanOutcome where
  | skip
  | expire (u : WatchlistItem)
  | fire (u : WatchlistItem)
deriving DecidableEq, Repr

/-- `item.ExpiresAt != nil && item.ExpiresAt.Before(time.Now())`
(watchlist.go line 195). -/
def expiryPassed (item : WatchlistItem) (now : Int) : Bool :=
  match item.expiresAt with
  | some t => t < now
  | none => false

/-- The per-item body of the `ScanWatchlist` loop (watchlist.go lines
193–242): expiry check, quote fetch (a failure skips the item for this cycle),
then the buy-list/sell-list trigger policy. -/
def scanItem (env : QuoteEnv) (now : Int) (item : WatchlistItem) : ScanOutcome :=
  if expiryPassed item now then
    .expire { item with status := WatchStatusExpired, updatedAt := now }
  else
    match env.getPrimaryDataSource with
    | .error _ => .skip
    | .ok ds =>
      match ds.getRealTimeQuote item.symbol with
      | .error _ => .skip
      | .ok quote =>
        let lastPrice := quote.lastPrice
        let triggered : Bool :=
          if item.isBuyList then
            decide (item.targetPrice > 0 ∧ lastPrice ≤ item.targetPrice)
          else
            decide ((item.stopLoss > 0 ∧ lastPrice ≤ item.stopLoss) ∨
              (item.takeProfit > 0 ∧ lastPrice ≥ item.takeProfit))
        if triggered then
          .fire
            { item with
              status := WatchStatusTriggered
              triggeredAt := some now
              updatedAt := now }
        else .skip

/-- The `ScanWatchlist` loop over the active items, collecting the
updated-items and triggered-items lists in loop order. -/
def scanPass (env : QuoteEnv) (now : Int) :
    List WatchlistItem → List WatchlistItem × List WatchlistItem
  | [] => ([], [])
  | it :: rest =>
    let tail := scanPass env now rest
    match scanItem env now it with
    | .skip => tail
    | .expire u => (u :: tail.1, tail.2)
    | .fire u => (u :: tail.1, u :: tail.2)

/-- `Watchlist.ScanWatchlist` (watchlist.go lines 184–252): scan the active
items, write the changed items back keyed by their id, return the triggered
items. -/
def scanWatchlist (w : WatchlistState) (env : QuoteEnv) (now : Int) :
    List WatchlistItem × WatchlistState :=
  let active := getActiveItems w
  let pass := scanPass env now active
  (pass.2, { items := pass.1.foldl (fun m u => insertA m u.id u) w.items })

/-! ## RSI indicator (`pkg/indicators/rsi.go`) -/

/-- `indicators.IndicatorResult` (indicator types file): named parallel
series plus a date column. -/
structure IndicatorResult where
  name : String
  values : List (String × List ℚ)
  dates : List String
deriving DecidableEq, Repr

/-- The indicator-type constant `IndicatorTypeRSI`. -/
def IndicatorTypeRSI : String := "RSI"

/-- Period-over-period changes (rsi.go lines 50–53):
`changes[i] = prices[i+1] - prices[i]`. -/
def priceChanges : List ℚ → List ℚ
  | p₁ :: p₂ :: rest => (p₂ - p₁) :: priceChanges (p₂ :: rest)
  | _ => []

/-- The saturating RSI formula (rsi.go lines 76–81 and 100–105): a zero
average loss maps to 100. -/
def wilderValue (avgGain avgLoss : ℚ) : ℚ :=
  if avgLoss = 0 then 100 else 100 - 100 / (1 + avgGain / avgLoss)

/-- The Wilder-smoothing loop of rsi.go lines 84–106, producing
`rsiValues[period+1 ..]` from the changes after the seed window. -/
def wilderLoop (period : Nat) (avgGain avgLoss : ℚ) : List ℚ → List ℚ
  | [] => []
  | c :: rest =>
    let currentGain := if c > 0 then c else 0
    let currentLoss := if c > 0 then 0 else -c
    let ag := (avgGain * (((period : Int) - 1 : Int) : ℚ) + currentGain) / (period : ℚ)
    let al := (avgLoss * (((period : Int) - 1 : Int) : ℚ) + currentLoss) / (period : ℚ)
    wilderValue ag al :: wilderLoop period ag al rest

/-- The full `rsiValues` series of `RSI.Calculate` (rsi.go lines 55–106):
zeros before index `period`, the seed value at index `period`, then the
smoothed values. -/
def rsiValues (period : Nat) (prices : List ℚ) : List ℚ :=
  let changes := priceChanges prices
  let sumGain := ((changes.take period).map (fun c => if c > 0 then c else 0)).sum
  let sumLoss := ((changes.take period).map (fun c => if c > 0 then 0 else -c)).sum
  let avgGain := sumGain / (period : ℚ)
  let avgLoss := sumLoss / (period : ℚ)
  List.replicate period 0 ++
    wilderValue avgGain avgLoss :: wilderLoop period avgGain avgLoss (changes.drop period)

/-- `RSI.Calculate` (rsi.go lines 35–118).  The date column keeps the bar
timestamps (the Go code formats them as RFC3339 text). -/
def rsiCalculate (period : Nat) (data : List StockData) : Except String IndicatorResult :=
  if data.length < period + 1 then
    .error "not enough data points for RSI calculation"
  else
    .ok
      { name := IndicatorTypeRSI
        values := [("rsi", rsiValues period (data.map (fun b => b.close)))]
        dates := data.map (fun b => toString b.timestamp) }

/-! ## Helper lemmas about the engine operations -/

/-- The `accepted` order stored by `SubmitOrder` before the fill attempt
(engine.go lines 183–186). -/
def acceptedOrder (now : Int) (symbol : String) (quantity : Int) (price : ℚ)
    (orderType orderSide : String) : Order :=
  { newOrder now symbol quantity price orderType orderSide with
      status := OrderStatusAccepted }

theorem submitOrder_market_fill
    (st : EngineState) (env : QuoteEnv) (now : Int) (symbol : String)
    (quantity : Int) (price : ℚ) (orderType side : String) (ds : DataSourceB) (q : Quote)
    (hen : st.enabled = true) (hsym : symbol ≠ "") (hqty : 0 < quantity)
    (htype : orderType = OrderTypeMarket)
    (hside : side = OrderSideBuy ∨ side = OrderSideSell)
    (hlimit : ¬ (side = OrderSideBuy ∧ (st.positions.length : Int) ≥ st.limits.maxPositions))
    (hds : env.getPrimaryDataSource = .ok ds)
    (hq : ds.getRealTimeQuote symbol = .ok q) :
    submitOrder st env now symbol quantity price orderType side =
      (let acc := acceptedOrder now symbol quantity price orderType side
       let filled := markFilled acc q.lastPrice now
       let st2 := updatePosition { st with orders := insertA st.orders acc.id acc } filled now
       (.ok filled, { st2 with orders := insertA st2.orders filled.id filled })) := by
  have h1 : ¬ ((!st.enabled) = true) := by rw [hen]; simp
  have h4 : ¬ (price < 0 ∧ orderType ≠ OrderTypeMarket) := fun h => h.2 htype
  have h5 : ¬ ¬ (orderType = OrderTypeMarket ∨ orderType = OrderTypeLimit ∨
      orderType = OrderTypeStop) := not_not_intro (Or.inl htype)
  have h6 : ¬ ¬ (side = OrderSideBuy ∨ side = OrderSideSell) := not_not_intro hside
  simp only [submitOrder, if_neg h1, if_neg hsym, if_neg (not_le.mpr hqty), if_neg h4,
    if_neg h5, if_neg h6, if_neg hlimit, if_pos htype, hds, hq, acceptedOrder]

theorem submitOrder_market_no_fill
    (st : EngineState) (env : QuoteEnv) (now : Int) (symbol : String)
    (quantity : Int) (price : ℚ) (orderType side : String)
    (hen : st.enabled = true) (hsym : symbol ≠ "") (hqty : 0 < quantity)
    (htype : orderType = OrderTypeMarket)
    (hside : side = OrderSideBuy ∨ side = OrderSideSell)
    (hlimit : ¬ (side = OrderSideBuy ∧ (st.positions.length : Int) ≥ st.limits.maxPositions))
    (hfail : (∃ e, env.getPrimaryDataSource = .error e) ∨
      (∃ ds e, env.getPrimaryDataSource = .ok ds ∧ ds.getRealTimeQuote symbol = .error e)) :
    submitOrder st env now symbol quantity price orderType side =
      (let acc := acceptedOrder now symbol quantity price orderType side
       (.ok acc, { st with orders := insertA st.orders acc.id acc })) := by
  have h1 : ¬ ((!st.enabled) = true) := by rw [hen]; simp
  have h4 : ¬ (price < 0 ∧ orderType ≠ OrderTypeMarket) := fun h => h.2 htype
  have h5 : ¬ ¬ (orderType = OrderTypeMarket ∨ orderType = OrderTypeLimit ∨
      orderType = OrderTypeStop) := not_not_intro (Or.inl htype)
  have h6 : ¬ ¬ (side = OrderSideBuy ∨ side = OrderSideSell) := not_not_intro hside
  rcases hfail with ⟨e, he⟩ | ⟨ds, e, hds, hq⟩
  · simp only [submitOrder, if_neg h1, if_neg hsym, if_neg (not_le.mpr hqty), if_neg h4,
      if_neg h5, if_neg h6, if_neg hlimit, if_pos htype, he, acceptedOrder]
  · simp only [submitOrder, if_neg h1, if_neg hsym, if_neg (not_le.mpr hqty), if_neg h4,
      if_neg h5, if_neg h6, if_neg hlimit, if_pos htype, hds, hq, acceptedOrder]

theorem updatePosition_buy_open (st : EngineState) (order : Order) (now : Int)
    (hstatus : order.status = OrderStatusFilled)
    (hside : order.side = OrderSideBuy)
    (hlook : lookupA st.positions order.symbol = none)
    (hqty : 0 < order.filledQty) :
    ∃ pos : Position,
      (updatePosition st order now).positions = insertA st.positions order.symbol pos ∧
      pos.symbol = order.symbol ∧
      pos.quantity = order.filledQty ∧
      pos.entryPrice = order.avgFillPrice ∧
      pos.cost = (order.filledQty : ℚ) * order.avgFillPrice ∧
      pos.openedAt = order.filledAt.getD 0 ∧
      (updatePosition st order now).account = st.account ∧
      (updatePosition st order now).trades = st.trades ∧
      (updatePosition st order now).orders = st.orders ∧
      (updatePosition st order now).enabled = st.enabled ∧
      (updatePosition st order now).limits = st.limits := by
  have hst : ¬ (order.status ≠ OrderStatusFilled) := not_not_intro hstatus
  have hq' : order.filledQty > 0 := hqty
  simp only [updatePosition, if_neg hst, if_pos hside, hlook]
  by_cases hsl : st.limits.stopLossPercent > 0 <;>
    by_cases htp : st.limits.takeProfitPercent > 0 <;>
      simp only [if_pos, if_neg, hsl, htp, ite_true, ite_false, if_pos hq'] <;>
      exact ⟨_, rfl, by simp⟩

theorem updatePosition_buy_add (st : EngineState) (order : Order) (pos0 : Position) (now : Int)
    (hstatus : order.status = OrderStatusFilled)
    (hside : order.side = OrderSideBuy)
    (hlook : lookupA st.positions order.symbol = some pos0)
    (hq : 0 < pos0.quantity + order.filledQty) :
    ∃ pos : Position,
      (updatePosition st order now).positions = insertA st.positions order.symbol pos ∧
      pos.quantity = pos0.quantity + order.filledQty ∧
      pos.cost = pos0.cost + (order.filledQty : ℚ) * order.avgFillPrice ∧
      pos.entryPrice = (pos0.cost + (order.filledQty : ℚ) * order.avgFillPrice) /
        ((pos0.quantity + order.filledQty : Int) : ℚ) ∧
      (updatePosition st order now).account = st.account ∧
      (updatePosition st order now).trades = st.trades ∧
      (updatePosition st order now).orders = st.orders := by
  have hst : ¬ (order.status ≠ OrderStatusFilled) := not_not_intro hstatus
  have hq' : pos0.quantity + order.filledQty > 0 := hq
  simp only [updatePosition, if_neg hst, if_pos hside, hlook]
  by_cases hsl : st.limits.stopLossPercent > 0 <;>
    by_cases htp : st.limits.takeProfitPercent > 0 <;>
      simp only [if_pos, if_neg, hsl, htp, ite_true, ite_false, if_pos hq'] <;>
      exact ⟨_, rfl, by simp⟩

theorem updatePosition_sell_close (st : EngineState) (order : Order) (pos0 : Position) (now : Int)
    (hstatus : order.status = OrderStatusFilled)
    (hside : order.side ≠ OrderSideBuy)
    (hlook : lookupA st.positions order.symbol = some pos0)
    (hclose : pos0.quantity - order.filledQty ≤ 0) :
    (updatePosition st order now).positions = eraseA st.positions order.symbol ∧
    (updatePosition st order now).account.realizedPnL =
      st.account.realizedPnL + (order.filledQty : ℚ) * (order.avgFillPrice - pos0.entryPrice) ∧
    (updatePosition st order now).orders = st.orders ∧
    ∃ tr : Trade, (updatePosition st order now).trades = st.trades ++ [tr] ∧
      tr.realizedPnL = (order.filledQty : ℚ) * (order.avgFillPrice - pos0.entryPrice) ∧
      tr.quantity = order.filledQty ∧
      tr.symbol = order.symbol ∧
      tr.entryPrice = pos0.entryPrice ∧
      tr.exitPrice = order.avgFillPrice ∧
      tr.openedAt = pos0.openedAt ∧
      tr.closedAt = some (order.filledAt.getD 0) := by
  have hst : ¬ (order.status ≠ OrderStatusFilled) := not_not_intro hstatus
  simp only [updatePosition, if_neg hst, if_neg hside, hlook, if_pos hclose]
  exact ⟨by simp, by simp, by simp, _, rfl, by simp⟩

theorem updatePosition_sell_no_position (st : EngineState) (order : Order) (now : Int)
    (hside : order.side ≠ OrderSideBuy)
    (hlook : lookupA st.positions order.symbol = none) :
    updatePosition st order now = st := by
  by_cases hst : order.status ≠ OrderStatusFilled
  · simp [updatePosition, if_pos hst]
  · simp only [updatePosition, if_neg hst, if_neg hside, hlook]

theorem updatePosition_not_filled (st : EngineState) (order : Order) (now : Int)
    (h : order.status ≠ OrderStatusFilled) : updatePosition st order now = st := by
  simp [updatePosition, if_pos h]

theorem updatePosition_buy_positions (st : EngineState) (order : Order) (now : Int)
    (hstatus : order.status = OrderStatusFilled) (hside : order.side = OrderSideBuy) :
    (updatePosition st order now).positions = st.positions ∨
    ∃ pos : Position, 0 < pos.quantity ∧
      (updatePosition st order now).positions = insertA st.positions order.symbol pos := by
  have hst : ¬ (order.status ≠ OrderStatusFilled) := not_not_intro hstatus
  cases hlook : lookupA st.positions order.symbol with
  | none =>
    by_cases hq : order.filledQty > 0
    · obtain ⟨pos, h1, _, h3, _⟩ := updatePosition_buy_open st order now hstatus hside hlook hq
      exact Or.inr ⟨pos, by rw [h3]; exact hq, h1⟩
    · left
      simp only [updatePosition, if_neg hst, if_pos hside, hlook]
      by_cases hsl : st.limits.stopLossPercent > 0 <;>
        by_cases htp : st.limits.takeProfitPercent > 0 <;>
          simp [hsl, htp, hq]
  | some pos0 =>
    by_cases hq : pos0.quantity + order.filledQty > 0
    · obtain ⟨pos, h1, h2, _⟩ := updatePosition_buy_add st order pos0 now hstatus hside hlook hq
      exact Or.inr ⟨pos, by rw [h2]; exact hq, h1⟩
    · left
      simp only [updatePosition, if_neg hst, if_pos hside, hlook]
      by_cases hsl : st.limits.stopLossPercent > 0 <;>
        by_cases htp : st.limits.takeProfitPercent > 0 <;>
          simp [hsl, htp, hq]

theorem updatePosition_sell_positions (st : EngineState) (order : Order) (now : Int)
    (hstatus : order.status = OrderStatusFilled) (hside : order.side ≠ OrderSideBuy) :
    (updatePosition st order now).positions = st.positions ∨
    (updatePosition st order now).positions = eraseA st.positions order.symbol ∨
    ∃ pos pos₂ : Position, 0 < pos.quantity ∧ 0 < pos₂.quantity ∧
      (updatePosition st order now).positions =
        insertA (insertA st.positions order.symbol pos) order.symbol pos₂ := by
  have hst : ¬ (order.status ≠ OrderStatusFilled) := not_not_intro hstatus
  cases hlook : lookupA st.positions order.symbol with
  | none =>
    left
    rw [updatePosition_sell_no_position st order now hside hlook]
  | some pos0 =>
    by_cases hclose : pos0.quantity - order.filledQty ≤ 0
    · right; left
      exact (updatePosition_sell_close st order pos0 now hstatus hside hlook hclose).1
    · right; right
      have hpos : 0 < pos0.quantity - order.filledQty := by omega
      simp only [updatePosition, if_neg hst, if_neg hside, hlook, if_neg hclose]
      exact ⟨_, _, by simpa using hpos, by simpa using hpos, rfl⟩

/-- Every store mutation of `updatePosition` keeps stored quantities
positive: buys are stored only under the final `pos.Quantity > 0` guard and
sells either store a strictly positive remainder or delete the entry. -/
theorem updatePosition_preserves_positive (st : EngineState) (order : Order) (now : Int)
    (hinv : ∀ x ∈ st.positions, 0 < x.2.quantity) :
    ∀ x ∈ (updatePosition st order now).positions, 0 < x.2.quantity := by
  intro x hx
  by_cases hst : order.status = OrderStatusFilled
  · by_cases hside : order.side = OrderSideBuy
    · rcases updatePosition_buy_positions st order now hst hside with h | ⟨pos, hq, h⟩
      · rw [h] at hx
        exact hinv x hx
      · rw [h] at hx
        rcases mem_insertA hx with rfl | hx'
        · exact hq
        · exact hinv x hx'
    · rcases updatePosition_sell_positions st order now hst hside with h | h | ⟨p₁, p₂, hq₁, hq₂, h⟩
      · rw [h] at hx
        exact hinv x hx
      · rw [h] at hx
        exact hinv x (mem_eraseA hx)
      · rw [h] at hx
        rcases mem_insertA hx with rfl | hx'
        · exact hq₂
        · rcases mem_insertA hx' with rfl | hx''
          · exact hq₁
          · exact hinv x hx''
  · rw [updatePosition_not_filled st order now hst] at hx
    exact hinv x hx

theorem lookupA_mem {α : Type} {m : List (String × α)} {k : String} {v : α}
    (h : lookupA m k = some v) : (k, v) ∈ m := by
  induction m with
  | nil => simp [lookupA] at h
  | cons hd tl ih =>
    obtain ⟨k₁, v₁⟩ := hd
    by_cases h₁ : k₁ = k
    · have hv : v₁ = v := by simpa [lookupA, if_pos h₁] using h
      subst hv
      subst h₁
      exact List.mem_cons_self _ _
    · simp only [lookupA, if_neg h₁] at h
      exact List.mem_cons_of_mem _ (ih h)

theorem submitOrder_positions_cases (st : EngineState) (env : QuoteEnv) (now : Int)
    (symbol : String) (quantity : Int) (price : ℚ) (orderType side : String) :
    (submitOrder st env now symbol quantity price orderType side).2.positions = st.positions ∨
    (0 < quantity ∧ ∃ (ord : Order) (stMid : EngineState),
      stMid.positions = st.positions ∧
      ord.status = OrderStatusFilled ∧
      ord.filledQty = quantity ∧
      (submitOrder st env now symbol quantity price orderType side).2.positions =
        (updatePosition stMid ord now).positions) := by
  by_cases hen : st.enabled = true
  case neg =>
    left
    have h1 : (!st.enabled) = true := by
      cases hb : st.enabled with
      | false => rfl
      | true => exact absurd hb hen
    simp only [submitOrder, if_pos h1]
  case pos =>
  have h1 : ¬ ((!st.enabled) = true) := by rw [hen]; simp
  by_cases hsym : symbol = ""
  · left
    simp only [submitOrder, if_neg h1, if_pos hsym]
  by_cases hqty : quantity ≤ 0
  · left
    simp only [submitOrder, if_neg h1, if_neg hsym, if_pos hqty]
  by_cases hprice : price < 0 ∧ orderType ≠ OrderTypeMarket
  · left
    simp only [submitOrder, if_neg h1, if_neg hsym, if_neg hqty, if_pos hprice]
  by_cases htype : orderType = OrderTypeMarket ∨ orderType = OrderTypeLimit ∨
      orderType = OrderTypeStop
  case neg =>
    left
    simp only [submitOrder, if_neg h1, if_neg hsym, if_neg hqty, if_neg hprice, if_pos htype]
  by_cases hside : side = OrderSideBuy ∨ side = OrderSideSell
  case neg =>
    left
    simp only [submitOrder, if_neg h1, if_neg hsym, if_neg hqty, if_neg hprice,
      if_neg (not_not_intro htype), if_pos hside]
  by_cases hlimit : side = OrderSideBuy ∧ (st.positions.length : Int) ≥ st.limits.maxPositions
  · left
    simp only [submitOrder, if_neg h1, if_neg hsym, if_neg hqty, if_neg hprice,
      if_neg (not_not_intro htype), if_neg (not_not_intro hside), if_pos hlimit]
  have hq0 : 0 < quantity := by omega
  by_cases hmkt : orderType = OrderTypeMarket
  · cases hds : env.getPrimaryDataSource with
    | error e =>
      left
      rw [submitOrder_market_no_fill st env now symbol quantity price orderType side
        hen hsym hq0 hmkt hside hlimit (Or.inl ⟨e, hds⟩)]
    | ok ds =>
      cases hqt : ds.getRealTimeQuote symbol with
      | error e =>
        left
        rw [submitOrder_market_no_fill st env now symbol quantity price orderType side
          hen hsym hq0 hmkt hside hlimit (Or.inr ⟨ds, e, hds, hqt⟩)]
      | ok quote =>
        right
        refine ⟨hq0,
          markFilled (acceptedOrder now symbol quantity price orderType side) quote.lastPrice now,
          { st with orders := insertA st.orders (acceptedOrder now symbol quantity price orderType side).id (acceptedOrder now symbol quantity price orderType side) },
          rfl, rfl, rfl, ?_⟩
        rw [submitOrder_market_fill st env now symbol quantity price orderType side ds quote
          hen hsym hq0 hmkt hside hlimit hds hqt]
  · left
    simp only [submitOrder, if_neg h1, if_neg hsym, if_neg hqty, if_neg hprice,
      if_neg (not_not_intro htype), if_neg (not_not_intro hside), if_neg hlimit,
      if_neg hmkt]

/-- The stored-position invariant of the claim C9. -/
def PositionsPositive (st : EngineState) : Prop :=
  ∀ x ∈ st.positions, 0 < x.2.quantity

instance (st : EngineState) : Decidable (PositionsPositive st) := by
  unfold PositionsPositive
  infer_instance

theorem submitOrder_preserves_positive (st : EngineState) (env : QuoteEnv) (now : Int)
    (symbol : String) (quantity : Int) (price : ℚ) (orderType side : String)
    (hinv : PositionsPositive st) :
    PositionsPositive (submitOrder st env now symbol quantity price orderType side).2 := by
  intro x hx
  rcases submitOrder_positions_cases st env now symbol quantity price orderType side with
    h | ⟨_, ord, stMid, hpos, _, _, h⟩
  · rw [h] at hx
    exact hinv x hx
  · rw [h] at hx
    refine updatePosition_preserves_positive stMid ord now ?_ x hx
    rw [hpos]
    exact hinv

/-! ## Concrete fixtures used by witnesses -/

def zeroAccount : Account :=
  { id := "", cash := 0, buyingPower := 0, equity := 0, realizedPnL := 0,
    unrealizedPnL := 0, totalPnL := 0, updatedAt := 0 }

/-- `NewBaseTradingEngine` (engine.go lines 72–83): disabled, empty stores,
zero-valued account. -/
def newBaseTradingEngine (limits : TradingLimits) : EngineState :=
  { enabled := false, limits := limits, orders := [], positions := [],
    account := zeroAccount, trades := [] }

def testLimits : TradingLimits :=
  { maxPositions := 10, maxPositionSizePercent := 25, maxDailyTrades := 20,
    stopLossPercent := 0, takeProfitPercent := 0 }

def engineOn : EngineState :=
  { enabled := true, limits := testLimits, orders := [], positions := [],
    account := zeroAccount, trades := [] }

def quoteAt (p : ℚ) : Quote :=
  { symbol := "AAPL", timestamp := 0, askPrice := 0, askSize := 0, bidPrice := 0,
    bidSize := 0, lastPrice := p, lastSize := 0, transactionID := "" }

def sourceAt (p : ℚ) : DataSourceB :=
  { name := "polygon", enabled := true,
    getRealTimeQuote := fun _ => .ok (quoteAt p),
    getStockData := fun _ _ _ _ => .error "unused" }

def envAt (p : ℚ) : QuoteEnv :=
  { getPrimaryDataSource := .ok (sourceAt p) }

def envNoQuote : QuoteEnv :=
  { getPrimaryDataSource := .ok
      { name := "polygon", enabled := true,
        getRealTimeQuote := fun _ => .error "quote unavailable",
        getStockData := fun _ _ _ _ => .error "unused" } }

def envNoPrimary : QuoteEnv :=
  { getPrimaryDataSource := .error "no primary data source set" }

/-! ## Claim C9 -/

/-- C9: every position stored in the engine's map has positive quantity — the
invariant holds for a freshly constructed engine, is preserved by every
`SubmitOrder` call, and makes a non-positive quantity unobservable through
`GetPosition` and `GetPositions`. -/
theorem position_quantity_invariant :
    (∀ limits : TradingLimits, PositionsPositive (newBaseTradingEngine limits)) ∧
    (∀ (st : EngineState) (env : QuoteEnv) (now : Int) (symbol : String) (quantity : Int)
      (price : ℚ) (orderType side : String), PositionsPositive st →
      PositionsPositive (submitOrder st env now symbol quantity price orderType side).2) ∧
    (∀ (st : EngineState) (symbol : String) (p : Position), PositionsPositive st →
      getPosition st symbol = .ok p → 0 < p.quantity) ∧
    (∀ (st : EngineState) (p : Position), PositionsPositive st →
      p ∈ getPositions st → 0 < p.quantity) := by
  refine ⟨?_, ?_, ?_, ?_⟩
  · intro limits x hx
    simp [newBaseTradingEngine] at hx
  · intro st env now symbol quantity price orderType side hinv
    exact submitOrder_preserves_positive st env now symbol quantity price orderType side hinv
  · intro st symbol p hinv hget
    unfold getPosition at hget
    cases hl : lookupA st.positions symbol with
    | none =>
      rw [hl] at hget
      simp at hget
    | some q =>
      rw [hl] at hget
      have hqp : q = p := by simpa using hget
      exact hqp ▸ hinv (symbol, q) (lookupA_mem hl)
  · intro st p hinv hp
    unfold getPositions at hp
    obtain ⟨x, hx, rfl⟩ := List.mem_map.mp hp
    exact hinv x hx

/-- Witness for C9: the invariant, instantiated on an enabled empty engine and
a concrete filled market buy. -/
theorem position_quantity_invariant_witness :
    PositionsPositive (submitOrder engineOn (envAt 150) 1 "AAPL" 100 0
      OrderTypeMarket OrderSideBuy).2 ∧
    PositionsPositive (newBaseTradingEngine testLimits) := by
  constructor
  · exact position_quantity_invariant.2.1 engineOn (envAt 150) 1 "AAPL" 100 0
      OrderTypeMarket OrderSideBuy (by decide)
  · exact position_quantity_invariant.1 testLimits

/-! ## Claim C7 -/

/-- C7: a filled buy against an existing position stores a position whose
quantity is the sum and whose entry price is
`(old cost + filled quantity * fill price) / (old quantity + filled quantity)`. -/
theorem buy_weighted_average_cost (st : EngineState) (order : Order) (pos0 : Position) (now : Int)
    (hstatus : order.status = OrderStatusFilled)
    (hside : order.side = OrderSideBuy)
    (hlook : lookupA st.positions order.symbol = some pos0)
    (hq : 0 < pos0.quantity + order.filledQty) :
    ∃ pos : Position,
      lookupA (updatePosition st order now).positions order.symbol = some pos ∧
      pos.quantity = pos0.quantity + order.filledQty ∧
      pos.entryPrice = (pos0.cost + (order.filledQty : ℚ) * order.avgFillPrice) /
        ((pos0.quantity + order.filledQty : Int) : ℚ) := by
  obtain ⟨pos, h1, h2, _, h4, _⟩ := updatePosition_buy_add st order pos0 now hstatus hside hlook hq
  refine ⟨pos, ?_, h2, h4⟩
  rw [h1]
  exact lookupA_insertA_self _ _ _

def stAfterBuy100 : EngineState :=
  (submitOrder engineOn (envAt 150.25) 1 "AAPL" 100 0 OrderTypeMarket OrderSideBuy).2

def posAfterBuy100 : Position :=
  { symbol := "AAPL", quantity := 100, entryPrice := 150.25, currentPrice := 150.25,
    marketValue := 15025, cost := 15025, unrealizedPnL := 0, pnlPercent := 0,
    openedAt := 1, updatedAt := 1, stopLoss := 0, takeProfit := 0 }

def secondBuyOrder : Order :=
  markFilled (acceptedOrder 2 "AAPL" 50 0 OrderTypeMarket OrderSideBuy) 160 2

/-- Witness for C7: buying 100 shares filled at 150.25 and then 50 more filled
at 160.00 yields quantity 150 at entry price exactly 153.50. -/
theorem buy_weighted_average_cost_witness :
    ∃ pos : Position,
      lookupA (updatePosition stAfterBuy100 secondBuyOrder 2).positions "AAPL" = some pos ∧
      pos.quantity = 150 ∧ pos.entryPrice = 153.5 := by
  have hlook : lookupA stAfterBuy100.positions secondBuyOrder.symbol = some posAfterBuy100 := by
    norm_num [stAfterBuy100, engineOn, envAt, sourceAt, quoteAt, submitOrder, updatePosition,
      markFilled, acceptedOrder, newOrder, insertA, lookupA, testLimits, zeroAccount,
      posAfterBuy100, secondBuyOrder, OrderTypeMarket, OrderSideBuy, OrderSideSell,
      OrderStatusFilled, OrderStatusAccepted, OrderStatusPending]
  obtain ⟨pos, h1, h2, h3⟩ := buy_weighted_average_cost stAfterBuy100 secondBuyOrder
    posAfterBuy100 2 rfl rfl hlook (by norm_num [posAfterBuy100, secondBuyOrder,
      markFilled, acceptedOrder, newOrder])
  refine ⟨pos, h1, ?_, ?_⟩
  · rw [h2]
    norm_num [posAfterBuy100, secondBuyOrder, markFilled, acceptedOrder, newOrder]
  · rw [h3]
    norm_num [posAfterBuy100, secondBuyOrder, markFilled, acceptedOrder, newOrder]

/-! ## Claim C10 -/

/-- C10: `UpdateItem` keeps the stored item's `ID` and `AddedAt`, freshly sets
`UpdatedAt`, takes every other field from the supplied value, and on a missing
id returns an error leaving the item map unchanged. -/
theorem update_item_frame (w : WatchlistState) (now : Int) (id : String)
    (upd : WatchlistItem) :
    (lookupA w.items id = none →
      (updateItem w now id upd).1 = .error ("item with ID " ++ id ++ " not found") ∧
      (updateItem w now id upd).2 = w) ∧
    (∀ item, lookupA w.items id = some item →
      (updateItem w now id upd).1 = .ok () ∧
      lookupA (updateItem w now id upd).2.items id =
        some { upd with id := item.id, addedAt := item.addedAt, updatedAt := now } ∧
      ∀ id', id' ≠ id →
        lookupA (updateItem w now id upd).2.items id' = lookupA w.items id') := by
  constructor
  · intro h
    simp only [updateItem, h]
    exact ⟨by trivial, by trivial⟩
  · intro item h
    simp only [updateItem, h]
    refine ⟨by trivial, lookupA_insertA_self _ _ _, ?_⟩
    intro id' hne
    exact lookupA_insertA_ne _ _ _ _ (Ne.symm hne)

def watchItem1 : WatchlistItem :=
  { id := "w1", symbol := "AAPL", targetPrice := 100, stopLoss := 0, takeProfit := 0,
    quantity := 10, status := WatchStatusActive, addedAt := 5, updatedAt := 5,
    expiresAt := none, triggeredAt := none, strategy := "", notes := "", tags := [],
    orderID := "", isBuyList := true }

def watch1 : WatchlistState :=
  { items := [("w1", watchItem1)] }

def watchUpd : WatchlistItem :=
  { watchItem1 with id := "spoofed", addedAt := 99, symbol := "MSFT", quantity := 20 }

/-- Witness for C10: updating a stored item keeps id `w1` and `AddedAt` 5
despite the supplied values, and a missing id leaves the map unchanged. -/
theorem update_item_frame_witness :
    (updateItem watch1 7 "w1" watchUpd).1 = .ok () ∧
    lookupA (updateItem watch1 7 "w1" watchUpd).2.items "w1" =
      some { watchUpd with id := "w1", addedAt := 5, updatedAt := 7 } ∧
    (updateItem watch1 7 "missing" watchUpd).2 = watch1 := by
  have hsome := (update_item_frame watch1 7 "w1" watchUpd).2 watchItem1
    (by simp [watch1, lookupA])
  have hnone := (update_item_frame watch1 7 "missing" watchUpd).1
    (by simp [watch1, lookupA])
  exact ⟨hsome.1, hsome.2.1, hnone.2⟩

/-! ## Claim C4 -/

def expiredOrder : Order :=
  { newOrder 3 "AAPL" 10 5 OrderTypeLimit OrderSideBuy with status := OrderStatusExpired }

def stWithExpired : EngineState :=
  { engineOn with orders := [("o1", expiredOrder)] }

def filledOrderC4 : Order :=
  { newOrder 4 "AAPL" 10 5 OrderTypeLimit OrderSideBuy with status := OrderStatusFilled }

def stWithFilled : EngineState :=
  { engineOn with orders := [("o2", filledOrderC4)] }

/-- C4 counterexample: the claim lists `expired` as terminal, but `CancelOrder`
on an expired order succeeds and rewrites its status to canceled instead of
returning an error and leaving it unchanged. -/
theorem cancel_expired_counterexample :
    expiredOrder.status = OrderStatusExpired ∧
    (cancelOrder stWithExpired 9 "o1").1 = .ok () ∧
    lookupA (cancelOrder stWithExpired 9 "o1").2.orders "o1" =
      some { expiredOrder with status := OrderStatusCanceled, updatedAt := 9 } := by
  refine ⟨rfl, ?_, ?_⟩ <;>
    simp [cancelOrder, stWithExpired, engineOn, expiredOrder, lookupA, insertA,
      OrderStatusFilled, OrderStatusCanceled, OrderStatusRejected, OrderStatusExpired,
      newOrder, OrderTypeLimit, OrderSideBuy]

/-- C4 (amended): `CancelOrder` on an enabled engine rejects exactly the
filled/canceled/rejected statuses, leaving the state unchanged; any other
existing order — expired included — transitions to canceled. -/
theorem cancel_order_terminal_behavior (st : EngineState) (now : Int) (oid : String)
    (order : Order) (hen : st.enabled = true)
    (hlook : lookupA st.orders oid = some order) :
    (order.status = OrderStatusFilled ∨ order.status = OrderStatusCanceled ∨
        order.status = OrderStatusRejected →
      cancelOrder st now oid = (.error (.cannotCancelStatus order.status), st)) ∧
    (¬ (order.status = OrderStatusFilled ∨ order.status = OrderStatusCanceled ∨
        order.status = OrderStatusRejected) →
      (cancelOrder st now oid).1 = .ok () ∧
      lookupA (cancelOrder st now oid).2.orders oid =
        some { order with status := OrderStatusCanceled, updatedAt := now }) := by
  have h1 : ¬ ((!st.enabled) = true) := by rw [hen]; simp
  constructor
  · intro hterm
    simp only [cancelOrder, if_neg h1, hlook, if_pos hterm]
  · intro hterm
    simp only [cancelOrder, if_neg h1, hlook, if_neg hterm]
    exact ⟨by trivial, lookupA_insertA_self _ _ _⟩

/-- Witness for C4: a filled order is rejected with the state unchanged, and
an expired order is canceled. -/
theorem cancel_order_terminal_behavior_witness :
    cancelOrder stWithFilled 9 "o2" =
      (.error (.cannotCancelStatus OrderStatusFilled), stWithFilled) ∧
    (cancelOrder stWithExpired 9 "o1").1 = .ok () := by
  constructor
  · exact (cancel_order_terminal_behavior stWithFilled 9 "o2" filledOrderC4 rfl
      (by simp [stWithFilled, engineOn, lookupA])).1 (Or.inl rfl)
  · exact ((cancel_order_terminal_behavior stWithExpired 9 "o1" expiredOrder rfl
      (by simp [stWithExpired, engineOn, lookupA])).2 (by decide)).1

/-! ## Claim C3 -/

/-- C3: `SubmitOrder` validates in order — disabled engine, empty symbol,
non-positive quantity, negative price on a non-market order, unknown order
type, unknown side, and the buy-only position-count limit — returning the
first applicable error with no state change, while a sell passing validation
is never rejected by the position-count limit. -/
theorem submit_order_validation_order (st : EngineState) (env : QuoteEnv) (now : Int)
    (symbol : String) (quantity : Int) (price : ℚ) (orderType side : String) :
    (st.enabled = false →
      submitOrder st env now symbol quantity price orderType side =
        (.error .tradeDisabled, st)) ∧
    (st.enabled = true → symbol = "" →
      submitOrder st env now symbol quantity price orderType side =
        (.error .invalidSymbol, st)) ∧
    (st.enabled = true → symbol ≠ "" → quantity ≤ 0 →
      submitOrder st env now symbol quantity price orderType side =
        (.error .invalidQuantity, st)) ∧
    (st.enabled = true → symbol ≠ "" → 0 < quantity → price < 0 →
      orderType ≠ OrderTypeMarket →
      submitOrder st env now symbol quantity price orderType side =
        (.error .invalidPrice, st)) ∧
    (st.enabled = true → symbol ≠ "" → 0 < quantity →
      ¬ (price < 0 ∧ orderType ≠ OrderTypeMarket) →
      ¬ (orderType = OrderTypeMarket ∨ orderType = OrderTypeLimit ∨
        orderType = OrderTypeStop) →
      submitOrder st env now symbol quantity price orderType side =
        (.error .invalidOrderType, st)) ∧
    (st.enabled = true → symbol ≠ "" → 0 < quantity →
      ¬ (price < 0 ∧ orderType ≠ OrderTypeMarket) →
      (orderType = OrderTypeMarket ∨ orderType = OrderTypeLimit ∨
        orderType = OrderTypeStop) →
      ¬ (side = OrderSideBuy ∨ side = OrderSideSell) →
      submitOrder st env now symbol quantity price orderType side =
        (.error .invalidOrderSide, st)) ∧
    (st.enabled = true → symbol ≠ "" → 0 < quantity →
      ¬ (price < 0 ∧ orderType ≠ OrderTypeMarket) →
      (orderType = OrderTypeMarket ∨ orderType = OrderTypeLimit ∨
        orderType = OrderTypeStop) →
      side = OrderSideBuy → (st.positions.length : Int) ≥ st.limits.maxPositions →
      submitOrder st env now symbol quantity price orderType side =
        (.error (.tradeLimitExceeded st.limits.maxPositions), st)) ∧
    (st.enabled = true → symbol ≠ "" → 0 < quantity →
      ¬ (price < 0 ∧ orderType ≠ OrderTypeMarket) →
      (orderType = OrderTypeMarket ∨ orderType = OrderTypeLimit ∨
        orderType = OrderTypeStop) →
      side = OrderSideSell →
      ∃ ord, (submitOrder st env now symbol quantity price orderType side).1 =
        .ok ord) := by
  refine ⟨?_, ?_, ?_, ?_, ?_, ?_, ?_, ?_⟩
  · intro hdis
    have h1 : (!st.enabled) = true := by rw [hdis]; rfl
    simp only [submitOrder, if_pos h1]
  · intro hen hsym
    have h1 : ¬ ((!st.enabled) = true) := by rw [hen]; simp
    simp only [submitOrder, if_neg h1, if_pos hsym]
  · intro hen hsym hq
    have h1 : ¬ ((!st.enabled) = true) := by rw [hen]; simp
    simp only [submitOrder, if_neg h1, if_neg hsym, if_pos hq]
  · intro hen hsym hq hp hmkt
    have h1 : ¬ ((!st.enabled) = true) := by rw [hen]; simp
    simp only [submitOrder, if_neg h1, if_neg hsym, if_neg (not_le.mpr hq),
      if_pos (And.intro hp hmkt)]
  · intro hen hsym hq hprice htype
    have h1 : ¬ ((!st.enabled) = true) := by rw [hen]; simp
    simp only [submitOrder, if_neg h1, if_neg hsym, if_neg (not_le.mpr hq),
      if_neg hprice, if_pos htype]
  · intro hen hsym hq hprice htype hside
    have h1 : ¬ ((!st.enabled) = true) := by rw [hen]; simp
    simp only [submitOrder, if_neg h1, if_neg hsym, if_neg (not_le.mpr hq),
      if_neg hprice, if_neg (not_not_intro htype), if_pos hside]
  · intro hen hsym hq hprice htype hbuy hcount
    have h1 : ¬ ((!st.enabled) = true) := by rw [hen]; simp
    simp only [submitOrder, if_neg h1, if_neg hsym, if_neg (not_le.mpr hq),
      if_neg hprice, if_neg (not_not_intro htype),
      if_neg (not_not_intro (Or.inl hbuy)), if_pos (And.intro hbuy hcount)]
  · intro hen hsym hq hprice htype hsell
    have h1 : ¬ ((!st.enabled) = true) := by rw [hen]; simp
    have hside : side = OrderSideBuy ∨ side = OrderSideSell := Or.inr hsell
    have hlimit : ¬ (side = OrderSideBuy ∧
        (st.positions.length : Int) ≥ st.limits.maxPositions) := by
      intro h
      rw [hsell] at h
      exact absurd h.1 (by decide)
    by_cases hmkt : orderType = OrderTypeMarket
    · cases hds : env.getPrimaryDataSource with
      | error e =>
        rw [submitOrder_market_no_fill st env now symbol quantity price orderType side
          hen hsym hq hmkt hside hlimit (Or.inl ⟨e, hds⟩)]
        exact ⟨_, rfl⟩
      | ok ds =>
        cases hqt : ds.getRealTimeQuote symbol with
        | error e =>
          rw [submitOrder_market_no_fill st env now symbol quantity price orderType side
            hen hsym hq hmkt hside hlimit (Or.inr ⟨ds, e, hds, hqt⟩)]
          exact ⟨_, rfl⟩
        | ok quote =>
          rw [submitOrder_market_fill st env now symbol quantity price orderType side
            ds quote hen hsym hq hmkt hside hlimit hds hqt]
          exact ⟨_, rfl⟩
    · simp only [submitOrder, if_neg h1, if_neg hsym, if_neg (not_le.mpr hq),
        if_neg hprice, if_neg (not_not_intro htype), if_neg (not_not_intro hside),
        if_neg hlimit, if_neg hmkt]
      exact ⟨_, rfl⟩

def stFull : EngineState :=
  { engineOn with limits := { testLimits with maxPositions := 0 } }

/-- Witness for C3: each validation error at a concrete input, and a sell that
is not subject to the position-count limit. -/
theorem submit_order_validation_order_witness :
    submitOrder (newBaseTradingEngine testLimits) (envAt 150) 1 "AAPL" 100 0
      OrderTypeMarket OrderSideBuy = (.error .tradeDisabled, newBaseTradingEngine testLimits) ∧
    submitOrder engineOn (envAt 150) 1 "" 100 0 OrderTypeMarket OrderSideBuy =
      (.error .invalidSymbol, engineOn) ∧
    submitOrder engineOn (envAt 150) 1 "AAPL" 0 0 OrderTypeMarket OrderSideBuy =
      (.error .invalidQuantity, engineOn) ∧
    submitOrder engineOn (envAt 150) 1 "AAPL" 100 (-1) OrderTypeLimit OrderSideBuy =
      (.error .invalidPrice, engineOn) ∧
    submitOrder engineOn (envAt 150) 1 "AAPL" 100 1 "bogus" OrderSideBuy =
      (.error .invalidOrderType, engineOn) ∧
    submitOrder engineOn (envAt 150) 1 "AAPL" 100 1 OrderTypeLimit "short" =
      (.error .invalidOrderSide, engineOn) ∧
    submitOrder stFull (envAt 150) 1 "AAPL" 100 0 OrderTypeMarket OrderSideBuy =
      (.error (.tradeLimitExceeded 0), stFull) ∧
    ∃ ord, (submitOrder stFull (envAt 150) 1 "AAPL" 100 0 OrderTypeMarket
      OrderSideSell).1 = .ok ord := by
  refine ⟨?_, ?_, ?_, ?_, ?_, ?_, ?_, ?_⟩
  · exact (submit_order_validation_order (newBaseTradingEngine testLimits) (envAt 150) 1
      "AAPL" 100 0 OrderTypeMarket OrderSideBuy).1 rfl
  · exact (submit_order_validation_order engineOn (envAt 150) 1 "" 100 0 OrderTypeMarket
      OrderSideBuy).2.1 rfl rfl
  · exact (submit_order_validation_order engineOn (envAt 150) 1 "AAPL" 0 0 OrderTypeMarket
      OrderSideBuy).2.2.1 rfl (by decide) (by decide)
  · exact (submit_order_validation_order engineOn (envAt 150) 1 "AAPL" 100 (-1)
      OrderTypeLimit OrderSideBuy).2.2.2.1 rfl (by decide) (by decide) (by norm_num)
      (by decide)
  · exact (submit_order_validation_order engineOn (envAt 150) 1 "AAPL" 100 1 "bogus"
      OrderSideBuy).2.2.2.2.1 rfl (by decide) (by decide)
      (by intro h; exact absurd h.1 (by norm_num)) (by decide)
  · exact (submit_order_validation_order engineOn (envAt 150) 1 "AAPL" 100 1
      OrderTypeLimit "short").2.2.2.2.2.1 rfl (by decide) (by decide)
      (by intro h; exact absurd h.1 (by norm_num)) (by decide) (by decide)
  · exact (submit_order_validation_order stFull (envAt 150) 1 "AAPL" 100 0 OrderTypeMarket
      OrderSideBuy).2.2.2.2.2.2.1 rfl (by decide) (by decide)
      (by intro h; exact absurd h.2 (by decide)) (by decide) rfl (by decide)
  · exact (submit_order_validation_order stFull (envAt 150) 1 "AAPL" 100 0 OrderTypeMarket
      OrderSideSell).2.2.2.2.2.2.2 rfl (by decide) (by decide)
      (by intro h; exact absurd h.2 (by decide)) (by decide) rfl

/-! ## Claim C2 -/

/-- C2: a validated market order fills at the primary source's quote — status
filled, filled quantity equal to the request, average fill price equal to the
quote's last price, the filled order stored, and the position/account updates
(`updatePosition`) already applied in the returned state; if the primary
source or the quote fails, the stored order stays `accepted` and positions,
account, and trades are unchanged. -/
theorem market_order_fill_semantics (st : EngineState) (env : QuoteEnv) (now : Int)
    (symbol : String) (quantity : Int) (price : ℚ) (side : String)
    (hen : st.enabled = true) (hsym : symbol ≠ "") (hqty : 0 < quantity)
    (hside : side = OrderSideBuy ∨ side = OrderSideSell)
    (hlimit : ¬ (side = OrderSideBuy ∧
      (st.positions.length : Int) ≥ st.limits.maxPositions)) :
    (∀ ds q, env.getPrimaryDataSource = .ok ds → ds.getRealTimeQuote symbol = .ok q →
      ∃ ord st', submitOrder st env now symbol quantity price OrderTypeMarket side =
          (.ok ord, st') ∧
        ord.status = OrderStatusFilled ∧
        ord.filledQty = quantity ∧
        ord.avgFillPrice = q.lastPrice ∧
        lookupA st'.orders ord.id = some ord ∧
        ∃ stMid : EngineState, stMid.positions = st.positions ∧
          stMid.account = st.account ∧ stMid.limits = st.limits ∧
          st'.positions = (updatePosition stMid ord now).positions ∧
          st'.account = (updatePosition stMid ord now).account ∧
          st'.trades = (updatePosition stMid ord now).trades) ∧
    (((∃ e, env.getPrimaryDataSource = .error e) ∨
        (∃ ds e, env.getPrimaryDataSource = .ok ds ∧
          ds.getRealTimeQuote symbol = .error e)) →
      ∃ ord st', submitOrder st env now symbol quantity price OrderTypeMarket side =
          (.ok ord, st') ∧
        ord.status = OrderStatusAccepted ∧
        lookupA st'.orders ord.id = some ord ∧
        st'.positions = st.positions ∧
        st'.account = st.account ∧
        st'.trades = st.trades) := by
  constructor
  · intro ds q hds hq
    rw [submitOrder_market_fill st env now symbol quantity price OrderTypeMarket side ds q
      hen hsym hqty rfl hside hlimit hds hq]
    refine ⟨_, _, rfl, rfl, rfl, rfl, lookupA_insertA_self _ _ _, ?_⟩
    exact ⟨{ st with orders := insertA st.orders (acceptedOrder now symbol quantity price OrderTypeMarket side).id (acceptedOrder now symbol quantity price OrderTypeMarket side) }, rfl, rfl, rfl, rfl, rfl, rfl⟩
  · intro hfail
    rw [submitOrder_market_no_fill st env now symbol quantity price OrderTypeMarket side
      hen hsym hqty rfl hside hlimit hfail]
    exact ⟨_, _, rfl, rfl, lookupA_insertA_self _ _ _, rfl, rfl, rfl⟩

/-- Witness for C2: a concrete market buy fills at 150 on a live quote and
stays accepted, with no position/account change, when the quote fails. -/
theorem market_order_fill_semantics_witness :
    (∃ ord st', submitOrder engineOn (envAt 150) 1 "AAPL" 100 0 OrderTypeMarket
        OrderSideBuy = (.ok ord, st') ∧
      ord.status = OrderStatusFilled ∧ ord.filledQty = 100 ∧ ord.avgFillPrice = 150) ∧
    (∃ ord st', submitOrder engineOn envNoQuote 1 "AAPL" 100 0 OrderTypeMarket
        OrderSideBuy = (.ok ord, st') ∧
      ord.status = OrderStatusAccepted ∧ st'.positions = engineOn.positions ∧
      st'.account = engineOn.account) := by
  constructor
  · obtain ⟨ord, st', h1, h2, h3, h4, -⟩ :=
      (market_order_fill_semantics engineOn (envAt 150) 1 "AAPL" 100 0 OrderSideBuy rfl
        (by decide) (by decide) (Or.inl rfl) (by decide)).1 (sourceAt 150) (quoteAt 150)
        rfl rfl
    exact ⟨ord, st', h1, h2, h3, h4⟩
  · obtain ⟨ord, st', h1, h2, -, h4, h5, -⟩ :=
      (market_order_fill_semantics engineOn envNoQuote 1 "AAPL" 100 0 OrderSideBuy rfl
        (by decide) (by decide) (Or.inl rfl) (by decide)).2 (Or.inr ⟨_, _, rfl, rfl⟩)
    exact ⟨ord, st', h1, h2, h4, h5⟩

theorem submitOrder_market_fill_frame (st : EngineState) (env : QuoteEnv) (now : Int)
    (symbol : String) (quantity : Int) (price : ℚ) (side : String)
    (ds : DataSourceB) (q : Quote)
    (hen : st.enabled = true) (hsym : symbol ≠ "") (hqty : 0 < quantity)
    (hside : side = OrderSideBuy ∨ side = OrderSideSell)
    (hlimit : ¬ (side = OrderSideBuy ∧
      (st.positions.length : Int) ≥ st.limits.maxPositions))
    (hds : env.getPrimaryDataSource = .ok ds)
    (hq : ds.getRealTimeQuote symbol = .ok q) :
    ∃ (ord : Order) (st' stMid : EngineState),
      submitOrder st env now symbol quantity price OrderTypeMarket side =
        (.ok ord, st') ∧
      ord.symbol = symbol ∧
      ord.side = side ∧
      ord.status = OrderStatusFilled ∧
      ord.filledQty = quantity ∧
      ord.avgFillPrice = q.lastPrice ∧
      ord.filledAt = some now ∧
      stMid.positions = st.positions ∧
      stMid.account = st.account ∧
      stMid.limits = st.limits ∧
      stMid.trades = st.trades ∧
      stMid.enabled = st.enabled ∧
      st'.enabled = (updatePosition stMid ord now).enabled ∧
      st'.limits = (updatePosition stMid ord now).limits ∧
      st'.positions = (updatePosition stMid ord now).positions ∧
      st'.account = (updatePosition stMid ord now).account ∧
      st'.trades = (updatePosition stMid ord now).trades := by
  rw [submitOrder_market_fill st env now symbol quantity price OrderTypeMarket side ds q
    hen hsym hqty rfl hside hlimit hds hq]
  exact ⟨_, _, { st with orders := insertA st.orders (acceptedOrder now symbol quantity price OrderTypeMarket side).id (acceptedOrder now symbol quantity price OrderTypeMarket side) }, rfl, rfl, rfl, rfl, rfl, rfl, rfl, rfl, rfl, rfl, rfl, rfl, rfl, rfl, rfl, rfl, rfl⟩

/-! ## Claim C1 -/

/-- C1: for a symbol with no prior position, a filled market buy of quantity
`q` followed by a filled market sell of the same `q` deletes the symbol from
the position map, appends exactly one `Trade` whose realized P&L is
`q * (sell fill - buy fill)`, and adds the same amount to the account's
realized P&L. -/
theorem round_trip_closes_position (st : EngineState) (env₁ env₂ : QuoteEnv)
    (t₁ t₂ : Int) (symbol : String) (q : Int) (ds₁ ds₂ : DataSourceB) (qt₁ qt₂ : Quote)
    (hen : st.enabled = true) (hsym : symbol ≠ "") (hq : 0 < q)
    (hnopos : lookupA st.positions symbol = none)
    (hlimit : (st.positions.length : Int) < st.limits.maxPositions)
    (hds₁ : env₁.getPrimaryDataSource = .ok ds₁)
    (hqt₁ : ds₁.getRealTimeQuote symbol = .ok qt₁)
    (hds₂ : env₂.getPrimaryDataSource = .ok ds₂)
    (hqt₂ : ds₂.getRealTimeQuote symbol = .ok qt₂) :
    lookupA (submitOrder (submitOrder st env₁ t₁ symbol q 0 OrderTypeMarket
        OrderSideBuy).2 env₂ t₂ symbol q 0 OrderTypeMarket
        OrderSideSell).2.positions symbol = none ∧
    (∃ tr : Trade, (submitOrder (submitOrder st env₁ t₁ symbol q 0 OrderTypeMarket
        OrderSideBuy).2 env₂ t₂ symbol q 0 OrderTypeMarket OrderSideSell).2.trades =
        st.trades ++ [tr] ∧
      tr.realizedPnL = (q : ℚ) * (qt₂.lastPrice - qt₁.lastPrice)) ∧
    (submitOrder (submitOrder st env₁ t₁ symbol q 0 OrderTypeMarket OrderSideBuy).2
        env₂ t₂ symbol q 0 OrderTypeMarket OrderSideSell).2.account.realizedPnL =
      st.account.realizedPnL + (q : ℚ) * (qt₂.lastPrice - qt₁.lastPrice) := by
  have hlimit₁ : ¬ (OrderSideBuy = OrderSideBuy ∧
      (st.positions.length : Int) ≥ st.limits.maxPositions) :=
    fun h => absurd h.2 (not_le.mpr hlimit)
  obtain ⟨ord₁, st₁, stM₁, hsub₁, hsymb₁, hside₁, hst₁, hfq₁, hfp₁, hfa₁, hm₁P, hm₁A,
      hm₁L, hm₁T, hm₁E, h₁E, h₁L, h₁P, h₁A, h₁T⟩ :=
    submitOrder_market_fill_frame st env₁ t₁ symbol q 0 OrderSideBuy ds₁ qt₁
      hen hsym hq (Or.inl rfl) hlimit₁ hds₁ hqt₁
  have hlook₁ : lookupA stM₁.positions ord₁.symbol = none := by
    rw [hm₁P, hsymb₁]
    exact hnopos
  have hfq₁' : 0 < ord₁.filledQty := by
    rw [hfq₁]
    exact hq
  obtain ⟨pos₁, hpos₁, hpsym₁, hpq₁, hpe₁, hpc₁, hpo₁, hoA, hoT, hoO, hoE, hoL⟩ :=
    updatePosition_buy_open stM₁ ord₁ t₁ hst₁ hside₁ hlook₁ hfq₁'
  have hen₁ : st₁.enabled = true := by rw [h₁E, hoE, hm₁E, hen]
  have hP₁ : st₁.positions = insertA st.positions symbol pos₁ := by
    rw [h₁P, hpos₁, hm₁P, hsymb₁]
  have hA₁ : st₁.account = st.account := by rw [h₁A, hoA, hm₁A]
  have hT₁ : st₁.trades = st.trades := by rw [h₁T, hoT, hm₁T]
  have hlimit₂ : ¬ (OrderSideSell = OrderSideBuy ∧
      (st₁.positions.length : Int) ≥ st₁.limits.maxPositions) :=
    fun h => absurd h.1 (by decide)
  obtain ⟨ord₂, st₂, stM₂, hsub₂, hsymb₂, hside₂, hst₂, hfq₂, hfp₂, hfa₂, hm₂P, hm₂A,
      hm₂L, hm₂T, hm₂E, h₂E, h₂L, h₂P, h₂A, h₂T⟩ :=
    submitOrder_market_fill_frame st₁ env₂ t₂ symbol q 0 OrderSideSell ds₂ qt₂
      hen₁ hsym hq (Or.inr rfl) hlimit₂ hds₂ hqt₂
  have hlook₂ : lookupA stM₂.positions ord₂.symbol = some pos₁ := by
    rw [hm₂P, hsymb₂, hP₁]
    exact lookupA_insertA_self _ _ _
  have hside₂' : ord₂.side ≠ OrderSideBuy := by
    rw [hside₂]
    decide
  have hclose : pos₁.quantity - ord₂.filledQty ≤ 0 := by
    rw [hpq₁, hfq₁, hfq₂]
    omega
  obtain ⟨hsP, hsA, hsO, tr, htr, htrpnl, htrq, htrsym, htre, htrx, htro, htrc⟩ :=
    updatePosition_sell_close stM₂ ord₂ pos₁ t₂ hst₂ hside₂' hlook₂ hclose
  simp only [hsub₁, hsub₂]
  refine ⟨?_, ⟨tr, ?_, ?_⟩, ?_⟩
  · rw [h₂P, hsP, hm₂P, hsymb₂, hP₁,
      eraseA_insertA_of_lookup_none st.positions symbol pos₁ hnopos]
    exact hnopos
  · rw [h₂T, htr, hm₂T, hT₁]
  · rw [htrpnl, hfq₂, hfp₂, hpe₁, hfp₁]
  · rw [h₂A, hsA, hm₂A, hA₁, hfq₂, hfp₂, hpe₁, hfp₁]

/-- Witness for C1: buy 100 of "AAPL" filled at 150, sell 100 filled at 170 —
the position is gone, exactly one trade with realized P&L `100 * (170 - 150)`
is appended, and the account realized P&L grows by the same amount. -/
theorem round_trip_closes_position_witness :
    lookupA (submitOrder (submitOrder engineOn (envAt 150) 1 "AAPL" 100 0
        OrderTypeMarket OrderSideBuy).2 (envAt 170) 2 "AAPL" 100 0 OrderTypeMarket
        OrderSideSell).2.positions "AAPL" = none ∧
    (∃ tr : Trade, (submitOrder (submitOrder engineOn (envAt 150) 1 "AAPL" 100 0
        OrderTypeMarket OrderSideBuy).2 (envAt 170) 2 "AAPL" 100 0 OrderTypeMarket
        OrderSideSell).2.trades = engineOn.trades ++ [tr] ∧
      tr.realizedPnL = (100 : ℚ) * (170 - 150)) ∧
    (submitOrder (submitOrder engineOn (envAt 150) 1 "AAPL" 100 0 OrderTypeMarket
        OrderSideBuy).2 (envAt 170) 2 "AAPL" 100 0 OrderTypeMarket
        OrderSideSell).2.account.realizedPnL =
      engineOn.account.realizedPnL + (100 : ℚ) * (170 - 150) :=
  round_trip_closes_position engineOn (envAt 150) (envAt 170) 1 2 "AAPL" 100
    (sourceAt 150) (sourceAt 170) (quoteAt 150) (quoteAt 170) rfl (by decide)
    (by decide) rfl (by decide) rfl rfl rfl rfl

/-! ## Claim C6 -/

/-- C6: in a `ScanWatchlist` pass, an expired item is marked expired and never
fires; a buy-list item with positive target fires exactly when the quote's
last price is at or below the target; a sell-list item fires exactly when the
last price hits its positive stop-loss from below or its positive take-profit
from above; and the returned triggered list contains exactly the fired items. -/
theorem scan_watchlist_trigger_policy (env : QuoteEnv) (now : Int) :
    (∀ item : WatchlistItem, expiryPassed item now = true →
      scanItem env now item =
        .expire { item with status := WatchStatusExpired, updatedAt := now } ∧
      ∀ u, scanItem env now item ≠ .fire u) ∧
    (∀ (item : WatchlistItem) (ds : DataSourceB) (q : Quote),
      expiryPassed item now = false → env.getPrimaryDataSource = .ok ds →
      ds.getRealTimeQuote item.symbol = .ok q →
      item.isBuyList = true → 0 < item.targetPrice →
      (q.lastPrice ≤ item.targetPrice →
        scanItem env now item =
          .fire { item with status := WatchStatusTriggered, triggeredAt := some now, updatedAt := now }) ∧
      (¬ q.lastPrice ≤ item.targetPrice → scanItem env now item = .skip)) ∧
    (∀ (item : WatchlistItem) (ds : DataSourceB) (q : Quote),
      expiryPassed item now = false → env.getPrimaryDataSource = .ok ds →
      ds.getRealTimeQuote item.symbol = .ok q →
      item.isBuyList = false →
      (((0 < item.stopLoss ∧ q.lastPrice ≤ item.stopLoss) ∨
          (0 < item.takeProfit ∧ q.lastPrice ≥ item.takeProfit)) →
        scanItem env now item =
          .fire { item with status := WatchStatusTriggered, triggeredAt := some now, updatedAt := now }) ∧
      (¬ ((0 < item.stopLoss ∧ q.lastPrice ≤ item.stopLoss) ∨
          (0 < item.takeProfit ∧ q.lastPrice ≥ item.takeProfit)) →
        scanItem env now item = .skip)) ∧
    (∀ (items : List WatchlistItem) (u : WatchlistItem),
      u ∈ (scanPass env now items).2 ↔
        ∃ item ∈ items, scanItem env now item = .fire u) := by
  refine ⟨?_, ?_, ?_, ?_⟩
  · intro item hexp
    constructor
    · simp [scanItem, hexp]
    · intro u
      simp [scanItem, hexp]
  · intro item ds q hexp hds hq hbuy htp
    constructor
    · intro hcond
      have hdec : decide (item.targetPrice > 0 ∧ q.lastPrice ≤ item.targetPrice) = true :=
        decide_eq_true ⟨htp, hcond⟩
      simp [scanItem, hexp, hds, hq, hbuy, hdec]
    · intro hcond
      have hdec : decide (item.targetPrice > 0 ∧ q.lastPrice ≤ item.targetPrice) = false :=
        decide_eq_false (fun h => hcond h.2)
      simp [scanItem, hexp, hds, hq, hbuy, hdec]
  · intro item ds q hexp hds hq hsell
    constructor
    · intro hcond
      have hdec : decide ((item.stopLoss > 0 ∧ q.lastPrice ≤ item.stopLoss) ∨
          (item.takeProfit > 0 ∧ q.lastPrice ≥ item.takeProfit)) = true :=
        decide_eq_true hcond
      simp [scanItem, hexp, hds, hq, hsell, hdec]
    · intro hcond
      have hdec : decide ((item.stopLoss > 0 ∧ q.lastPrice ≤ item.stopLoss) ∨
          (item.takeProfit > 0 ∧ q.lastPrice ≥ item.takeProfit)) = false :=
        decide_eq_false hcond
      simp [scanItem, hexp, hds, hq, hsell, hdec]
  · intro items u
    induction items with
    | nil => simp [scanPass]
    | cons it rest ih =>
      simp only [scanPass]
      cases hsc : scanItem env now it with
      | skip =>
        rw [ih]
        constructor
        · rintro ⟨x, hx, hfx⟩
          exact ⟨x, List.mem_cons_of_mem _ hx, hfx⟩
        · rintro ⟨x, hx, hfx⟩
          rcases List.mem_cons.mp hx with rfl | hx'
          · rw [hsc] at hfx
            cases hfx
          · exact ⟨x, hx', hfx⟩
      | expire u' =>
        rw [ih]
        constructor
        · rintro ⟨x, hx, hfx⟩
          exact ⟨x, List.mem_cons_of_mem _ hx, hfx⟩
        · rintro ⟨x, hx, hfx⟩
          rcases List.mem_cons.mp hx with rfl | hx'
          · rw [hsc] at hfx
            cases hfx
          · exact ⟨x, hx', hfx⟩
      | fire u' =>
        constructor
        · intro hu
          rcases List.mem_cons.mp hu with rfl | hu'
          · exact ⟨it, List.mem_cons_self _ _, hsc⟩
          · obtain ⟨x, hx, hfx⟩ := ih.mp hu'
            exact ⟨x, List.mem_cons_of_mem _ hx, hfx⟩
        · rintro ⟨x, hx, hfx⟩
          rcases List.mem_cons.mp hx with rfl | hx'
          · rw [hsc] at hfx
            cases hfx
            exact List.mem_cons_self _ _
          · exact List.mem_cons_of_mem _ (ih.mpr ⟨x, hx', hfx⟩)

def expiredWatchItem : WatchlistItem :=
  { watchItem1 with id := "w2", expiresAt := some 1 }

/-- Witness for C6: target 100 does not fire at 100.01, fires at 100 and at
99.50, and a past-expiry item is expired, not fired, despite a passing price. -/
theorem scan_watchlist_trigger_policy_witness :
    scanItem (envAt (10001/100)) 5 watchItem1 = .skip ∧
    scanItem (envAt 100) 5 watchItem1 =
      .fire { watchItem1 with status := WatchStatusTriggered, triggeredAt := some 5, updatedAt := 5 } ∧
    scanItem (envAt (9950/100)) 5 watchItem1 =
      .fire { watchItem1 with status := WatchStatusTriggered, triggeredAt := some 5, updatedAt := 5 } ∧
    scanItem (envAt 100) 5 expiredWatchItem =
      .expire { expiredWatchItem with status := WatchStatusExpired, updatedAt := 5 } := by
  refine ⟨?_, ?_, ?_, ?_⟩
  · exact ((scan_watchlist_trigger_policy (envAt (10001/100)) 5).2.1 watchItem1
      (sourceAt (10001/100)) (quoteAt (10001/100)) rfl rfl rfl rfl
      (by norm_num [watchItem1])).2 (by norm_num [watchItem1, quoteAt])
  · exact ((scan_watchlist_trigger_policy (envAt 100) 5).2.1 watchItem1
      (sourceAt 100) (quoteAt 100) rfl rfl rfl rfl
      (by norm_num [watchItem1])).1 (by norm_num [watchItem1, quoteAt])
  · exact ((scan_watchlist_trigger_policy (envAt (9950/100)) 5).2.1 watchItem1
      (sourceAt (9950/100)) (quoteAt (9950/100)) rfl rfl rfl rfl
      (by norm_num [watchItem1])).1 (by norm_num [watchItem1, quoteAt])
  · exact ((scan_watchlist_trigger_policy (envAt 100) 5).1 expiredWatchItem rfl).1

/-! ## Claim C8 -/

theorem priceChanges_pos {l : List ℚ} (h : List.Chain' (· < ·) l) :
    ∀ c ∈ priceChanges l, 0 < c := by
  induction l with
  | nil => simp [priceChanges]
  | cons p₁ rest ih =>
    cases rest with
    | nil => simp [priceChanges]
    | cons p₂ rest' =>
      intro c hc
      rw [List.chain'_cons] at h
      simp only [priceChanges, List.mem_cons] at hc
      rcases hc with rfl | hc
      · linarith [h.1]
      · exact ih h.2 c hc

theorem priceChanges_length (l : List ℚ) :
    (priceChanges l).length = l.length - 1 := by
  induction l with
  | nil => simp [priceChanges]
  | cons p₁ rest ih =>
    cases rest with
    | nil => simp [priceChanges]
    | cons p₂ rest' =>
      simp only [priceChanges, List.length_cons] at ih ⊢
      omega

theorem wilderLoop_all_pos (period : Nat) (avgGain : ℚ) (changes : List ℚ)
    (hpos : ∀ c ∈ changes, 0 < c) :
    wilderLoop period avgGain 0 changes = List.replicate changes.length 100 := by
  induction changes generalizing avgGain with
  | nil => simp [wilderLoop]
  | cons c rest ih =>
    have hc : 0 < c := hpos c (List.mem_cons_self _ _)
    have hloss : (if c > 0 then (0 : ℚ) else -c) = 0 := if_pos hc
    simp only [wilderLoop, hloss, List.replicate_succ, List.length_cons]
    rw [mul_comm (0 : ℚ), mul_zero, zero_add, zero_div]
    congr 1
    exact ih _ (fun x hx => hpos x (List.mem_cons_of_mem _ hx))

theorem wilderValue_zero_loss (avgGain : ℚ) : wilderValue avgGain 0 = 100 :=
  if_pos rfl

theorem rsiValues_increasing (period : Nat) (prices : List ℚ)
    (hmono : List.Chain' (· < ·) prices) (hlen : period < prices.length) :
    rsiValues period prices =
      List.replicate period 0 ++ List.replicate (prices.length - period) 100 := by
  have hpos := priceChanges_pos hmono
  have hloss : (((priceChanges prices).take period).map
      (fun c => if c > 0 then (0 : ℚ) else -c)).sum = 0 := by
    apply List.sum_eq_zero
    intro x hx
    obtain ⟨c, hc, rfl⟩ := List.mem_map.mp hx
    exact if_pos (hpos c (List.mem_of_mem_take hc))
  have hdrop : ∀ c ∈ (priceChanges prices).drop period, 0 < c :=
    fun c hc => hpos c (List.mem_of_mem_drop hc)
  have hlenc : ((priceChanges prices).drop period).length =
      prices.length - 1 - period := by
    rw [List.length_drop, priceChanges_length]
  simp only [rsiValues, hloss, zero_div, wilderValue_zero_loss,
    wilderLoop_all_pos period _ _ hdrop, hlenc]
  rw [show prices.length - period = (prices.length - 1 - period) + 1 by omega,
    List.replicate_succ]

/-- C8: on a strictly increasing close series longer than the period,
`RSI.Calculate` succeeds, the `rsi` series is zero before index `period` and
its last value is exactly 100 (the zero-average-loss branch). -/
theorem rsi_saturation_on_increasing_series (period : Nat) (data : List StockData)
    (hmono : List.Chain' (· < ·) (data.map (fun b => b.close)))
    (hlen : period < data.length) :
    ∃ res : IndicatorResult, rsiCalculate period data = .ok res ∧
      ∃ vs : List ℚ, lookupA res.values "rsi" = some vs ∧
        vs.length = data.length ∧
        vs.getLast? = some 100 ∧
        ∀ i : Nat, i < period → vs[i]? = some 0 := by
  have hlen' : (data.map (fun b => b.close)).length = data.length := by simp
  have hnot : ¬ (data.length < period + 1) := by omega
  have hvals := rsiValues_increasing period (data.map (fun b => b.close)) hmono
    (by omega)
  refine ⟨_, by rw [rsiCalculate, if_neg hnot], rsiValues period (data.map (fun b => b.close)),
    by simp [lookupA], ?_, ?_, ?_⟩
  · rw [hvals]
    simp only [List.length_append, List.length_replicate, hlen']
    omega
  · rw [hvals]
    rw [List.getLast?_append_of_ne_nil]
    · have hk : (data.map (fun b => b.close)).length - period =
          ((data.map (fun b => b.close)).length - period - 1) + 1 := by
        rw [hlen']
        omega
      rw [hk, List.replicate_succ]
      induction ((data.map (fun b => b.close)).length - period - 1) with
      | zero => rfl
      | succ n ihn =>
        rw [List.replicate_succ]
        simpa using ihn
    · rw [hlen']
      simp only [ne_eq, List.replicate_eq_nil_iff]
      omega
  · intro i hi
    rw [hvals]
    rw [List.getElem?_append_left (by simpa using hi)]
    simp [hi]

def rsiBar (t : Int) (c : ℚ) : StockData :=
  { symbol := "AAPL", timestamp := t, openPrice := c, high := c, low := c, close := c,
    volume := 0, vwap := 0, transactionID := "" }

def rsiData : List StockData :=
  [rsiBar 1 1, rsiBar 2 2, rsiBar 3 3, rsiBar 4 4]

/-- Witness for C8: period 2 over the strictly increasing closes 1,2,3,4. -/
theorem rsi_saturation_on_increasing_series_witness :
    ∃ res : IndicatorResult, rsiCalculate 2 rsiData = .ok res ∧
      ∃ vs : List ℚ, lookupA res.values "rsi" = some vs ∧ vs.length = 4 ∧
        vs.getLast? = some 100 ∧ ∀ i : Nat, i < 2 → vs[i]? = some 0 := by
  obtain ⟨res, h1, vs, h2, h3, h4, h5⟩ := rsi_saturation_on_increasing_series 2 rsiData
    (by norm_num [rsiData, rsiBar, List.chain'_cons]) (by simp [rsiData])
  refine ⟨res, h1, vs, h2, ?_, h4, h5⟩
  rw [h3]
  simp [rsiData]

/-! ## Claim C5 -/

theorem lookupA_eq_of_mem_nodup {α : Type} {m : List (String × α)}
    (hnodup : (m.map Prod.fst).Nodup) {k : String} {v : α} (hmem : (k, v) ∈ m) :
    lookupA m k = some v := by
  induction m with
  | nil => simp at hmem
  | cons hd tl ih =>
    obtain ⟨k₁, v₁⟩ := hd
    simp only [List.map_cons, List.nodup_cons] at hnodup
    rcases List.mem_cons.mp hmem with heq | hmem'
    · obtain ⟨hk, hv⟩ := Prod.mk.injEq .. ▸ heq
      injection heq with hk hv
      subst hk
      subst hv
      simp [lookupA]
    · by_cases hk : k₁ = k
      · exfalso
        apply hnodup.1
        subst hk
        exact List.mem_map.mpr ⟨(k₁, v), hmem', rfl⟩
      · simp only [lookupA, if_neg hk]
        exact ih hnodup.2 hmem'

theorem fallbackLoop_first_success (primary symbol timeframe : String) (a b : Int)
    (pre : List (String × DataSourceB)) (nm : String) (ds : DataSourceB)
    (post : List (String × DataSourceB)) (bars : List StockData)
    (hpre : ∀ x ∈ pre, x.1 ≠ primary → x.2.enabled = true →
      ∃ e, x.2.getStockData symbol timeframe a b = .error e)
    (hnm : nm ≠ primary) (hen : ds.enabled = true)
    (hok : ds.getStockData symbol timeframe a b = .ok bars) :
    ∀ acc, fallbackLoop primary symbol timeframe a b (pre ++ (nm, ds) :: post) acc =
      .ok bars := by
  induction pre with
  | nil =>
    intro acc
    have hskip : ¬ (nm = primary ∨ ¬ ds.enabled = true) := by
      push_neg
      exact ⟨hnm, hen⟩
    simp only [List.nil_append, fallbackLoop, if_neg hskip, hok]
  | cons x pre' ih =>
    intro acc
    obtain ⟨k₁, v₁⟩ := x
    have ih' := ih (fun y hy => hpre y (List.mem_cons_of_mem _ hy))
    by_cases hskip : k₁ = primary ∨ ¬ v₁.enabled = true
    · simp only [List.cons_append, fallbackLoop, if_pos hskip]
      exact ih' acc
    · push_neg at hskip
      obtain ⟨e, he⟩ := hpre (k₁, v₁) (List.mem_cons_self _ _) hskip.1 hskip.2
      have hskip' : ¬ (k₁ = primary ∨ ¬ v₁.enabled = true) := by
        push_neg
        exact hskip
      simp only [List.cons_append, fallbackLoop, if_neg hskip']
      rw [he]
      exact ih' (some e)

theorem fallbackLoop_error_spec (primary symbol timeframe : String) (a b : Int) :
    ∀ (l : List (String × DataSourceB)) (acc : Option String) (e : String),
      fallbackLoop primary symbol timeframe a b l acc = .error (.allFailed e) →
      (∀ x ∈ l, x.1 ≠ primary → x.2.enabled = true →
        ∃ e', x.2.getStockData symbol timeframe a b = .error e') ∧
      ((∃ pre nm ds post, l = pre ++ (nm, ds) :: post ∧ nm ≠ primary ∧
          ds.enabled = true ∧ ds.getStockData symbol timeframe a b = .error e ∧
          ∀ x ∈ post, x.1 = primary ∨ x.2.enabled = false) ∨
        (acc = some e ∧ ∀ x ∈ l, x.1 = primary ∨ x.2.enabled = false)) := by
  intro l
  induction l with
  | nil =>
    intro acc e h
    cases acc with
    | none => simp [fallbackLoop] at h
    | some e' =>
      simp only [fallbackLoop, Except.error.injEq, FetchError.allFailed.injEq] at h
      subst h
      exact ⟨by simp, Or.inr ⟨rfl, by simp⟩⟩
  | cons x rest ih =>
    intro acc e h
    obtain ⟨k₁, v₁⟩ := x
    by_cases hskip : k₁ = primary ∨ ¬ v₁.enabled = true
    · rw [show fallbackLoop primary symbol timeframe a b ((k₁, v₁) :: rest) acc =
          fallbackLoop primary symbol timeframe a b rest acc from by
            simp only [fallbackLoop, if_pos hskip]] at h
      obtain ⟨hfail, hrest⟩ := ih acc e h
      have hskip' : k₁ = primary ∨ v₁.enabled = false := by
        rcases hskip with h' | h'
        · exact Or.inl h'
        · exact Or.inr (by simpa using h')
      refine ⟨?_, ?_⟩
      · intro y hy hne hyen
        rcases List.mem_cons.mp hy with rfl | hy'
        · exfalso
          rcases hskip with h' | h'
          · exact hne h'
          · exact h' hyen
        · exact hfail y hy' hne hyen
      · rcases hrest with ⟨pre, nm, ds, post, hdec, hn, hden, hde, hpost⟩ | ⟨hacc, hall⟩
        · exact Or.inl ⟨(k₁, v₁) :: pre, nm, ds, post, by rw [hdec, List.cons_append],
            hn, hden, hde, hpost⟩
        · refine Or.inr ⟨hacc, ?_⟩
          intro y hy
          rcases List.mem_cons.mp hy with rfl | hy'
          · exact hskip'
          · exact hall y hy'
    · push_neg at hskip
      have hskip' : ¬ (k₁ = primary ∨ ¬ v₁.enabled = true) := by
        push_neg
        exact hskip
      cases hfetch : v₁.getStockData symbol timeframe a b with
      | ok bars =>
        rw [show fallbackLoop primary symbol timeframe a b ((k₁, v₁) :: rest) acc =
            .ok bars from by simp only [fallbackLoop, if_neg hskip', hfetch]] at h
        cases h
      | error e₁ =>
        rw [show fallbackLoop primary symbol timeframe a b ((k₁, v₁) :: rest) acc =
            fallbackLoop primary symbol timeframe a b rest (some e₁) from by
              simp only [fallbackLoop, if_neg hskip', hfetch]] at h
        obtain ⟨hfail, hrest⟩ := ih (some e₁) e h
        refine ⟨?_, ?_⟩
        · intro y hy hne hyen
          rcases List.mem_cons.mp hy with rfl | hy'
          · exact ⟨e₁, hfetch⟩
          · exact hfail y hy' hne hyen
        · rcases hrest with ⟨pre, nm, ds, post, hdec, hn, hden, hde, hpost⟩ | ⟨hacc, hall⟩
          · exact Or.inl ⟨(k₁, v₁) :: pre, nm, ds, post, by rw [hdec, List.cons_append],
              hn, hden, hde, hpost⟩
          · have he₁ : e₁ = e := by injection hacc
            subst he₁
            exact Or.inl ⟨[], k₁, v₁, rest, by simp, hskip.1, hskip.2, hfetch, hall⟩

theorem getStockData_fallback_eq (m : Manager) (symbol timeframe : String) (a b : Int)
    (hprim : lookupA m.dataSources m.primary = none ∨
      ∃ pds, lookupA m.dataSources m.primary = some pds ∧
        (pds.enabled = false ∨ ∃ e, pds.getStockData symbol timeframe a b = .error e)) :
    m.getStockData symbol timeframe a b =
      fallbackLoop m.primary symbol timeframe a b m.dataSources none := by
  rcases hprim with hnone | ⟨pds, hsome, hbad⟩
  · simp only [Manager.getStockData, hnone]
  · rcases hbad with hdis | ⟨e, herr⟩
    · simp only [Manager.getStockData, hsome, hdis]
      rfl
    · simp only [Manager.getStockData, hsome, herr]
      split
      · rename_i heq
        simp at heq
      · rfl

/-- C5: with a failing primary and a succeeding secondary the manager returns
the secondary's bars with no error; in general an enabled primary's success is
returned first; when the primary is missing, disabled, or failing, the
remaining enabled sources are tried in iteration order and the first success
is returned; and an aggregate `allFailed` error implies every enabled source's
fetch failed, with the cited message being the last enabled non-primary
failure. -/
theorem get_stock_data_failover (symbol timeframe : String) (a b : Int) :
    (∀ (pname sname : String) (pds sds : DataSourceB) (bars : List StockData) (e : String),
      pname ≠ sname → pds.enabled = true → sds.enabled = true →
      pds.getStockData symbol timeframe a b = .error e →
      sds.getStockData symbol timeframe a b = .ok bars →
      Manager.getStockData ⟨[(pname, pds), (sname, sds)], pname⟩ symbol timeframe a b =
        .ok bars) ∧
    (∀ (m : Manager) (pds : DataSourceB) (bars : List StockData),
      lookupA m.dataSources m.primary = some pds → pds.enabled = true →
      pds.getStockData symbol timeframe a b = .ok bars →
      m.getStockData symbol timeframe a b = .ok bars) ∧
    (∀ (m : Manager) (pre post : List (String × DataSourceB)) (nm : String)
        (ds : DataSourceB) (bars : List StockData),
      (lookupA m.dataSources m.primary = none ∨
        ∃ pds, lookupA m.dataSources m.primary = some pds ∧
          (pds.enabled = false ∨ ∃ e, pds.getStockData symbol timeframe a b = .error e)) →
      m.dataSources = pre ++ (nm, ds) :: post →
      (∀ x ∈ pre, x.1 ≠ m.primary → x.2.enabled = true →
        ∃ e, x.2.getStockData symbol timeframe a b = .error e) →
      nm ≠ m.primary → ds.enabled = true →
      ds.getStockData symbol timeframe a b = .ok bars →
      m.getStockData symbol timeframe a b = .ok bars) ∧
    (∀ (m : Manager) (e : String),
      (m.dataSources.map Prod.fst).Nodup →
      m.getStockData symbol timeframe a b = .error (.allFailed e) →
      (∀ x ∈ m.dataSources, x.2.enabled = true →
        ∃ e', x.2.getStockData symbol timeframe a b = .error e') ∧
      ∃ pre nm ds post, m.dataSources = pre ++ (nm, ds) :: post ∧ nm ≠ m.primary ∧
        ds.enabled = true ∧ ds.getStockData symbol timeframe a b = .error e ∧
        ∀ x ∈ post, x.1 = m.primary ∨ x.2.enabled = false) := by
  have hprimaryOk : ∀ (m : Manager) (pds : DataSourceB) (bars : List StockData),
      lookupA m.dataSources m.primary = some pds → pds.enabled = true →
      pds.getStockData symbol timeframe a b = .ok bars →
      m.getStockData symbol timeframe a b = .ok bars := by
    intro m pds bars hsome hen hok
    simp only [Manager.getStockData, hsome, if_pos hen, hok]
  refine ⟨?_, hprimaryOk, ?_, ?_⟩
  · intro pname sname pds sds bars e hne hpen hsen herr hok
    have hlook : lookupA ([(pname, pds), (sname, sds)] : List (String × DataSourceB))
        pname = some pds := by simp [lookupA]
    rw [getStockData_fallback_eq ⟨[(pname, pds), (sname, sds)], pname⟩ symbol timeframe
      a b (Or.inr ⟨pds, hlook, Or.inr ⟨e, herr⟩⟩)]
    exact fallbackLoop_first_success pname symbol timeframe a b [(pname, pds)] sname sds
      [] bars (by
        intro x hx hxne hxen
        rcases List.mem_cons.mp hx with rfl | hx'
        · exact absurd rfl hxne
        · simp at hx') (Ne.symm hne) hsen hok none
  · intro m pre post nm ds bars hprim hdec hpre hnm hen hok
    rw [getStockData_fallback_eq m symbol timeframe a b hprim, hdec]
    exact fallbackLoop_first_success m.primary symbol timeframe a b pre nm ds post bars
      hpre hnm hen hok none
  · intro m e hnodup h
    have hfb : fallbackLoop m.primary symbol timeframe a b m.dataSources none =
        .error (.allFailed e) := by
      rcases hlp : lookupA m.dataSources m.primary with _ | pds
      · rw [getStockData_fallback_eq m symbol timeframe a b (Or.inl hlp)] at h
        exact h
      · by_cases hen : pds.enabled = true
        · cases hfetch : pds.getStockData symbol timeframe a b with
          | ok bars =>
            rw [hprimaryOk m pds bars hlp hen hfetch] at h
            cases h
          | error e₀ =>
            rw [getStockData_fallback_eq m symbol timeframe a b
              (Or.inr ⟨pds, hlp, Or.inr ⟨e₀, hfetch⟩⟩)] at h
            exact h
        · rw [getStockData_fallback_eq m symbol timeframe a b
            (Or.inr ⟨pds, hlp, Or.inl (by simpa using hen)⟩)] at h
          exact h
    obtain ⟨hfail, hrest⟩ := fallbackLoop_error_spec m.primary symbol timeframe a b
      m.dataSources none e hfb
    have hdecomp : ∃ pre nm ds post, m.dataSources = pre ++ (nm, ds) :: post ∧
        nm ≠ m.primary ∧ ds.enabled = true ∧
        ds.getStockData symbol timeframe a b = .error e ∧
        ∀ x ∈ post, x.1 = m.primary ∨ x.2.enabled = false := by
      rcases hrest with hdec | ⟨hacc, _⟩
      · exact hdec
      · cases hacc
    refine ⟨?_, hdecomp⟩
    intro x hx hxen
    obtain ⟨k, v⟩ := x
    by_cases hk : k = m.primary
    · have hlk : lookupA m.dataSources k = some v := lookupA_eq_of_mem_nodup hnodup hx
      rw [hk] at hlk
      by_cases hen : v.enabled = true
      · cases hfetch : v.getStockData symbol timeframe a b with
        | ok bars =>
          rw [hprimaryOk m v bars hlk hen hfetch] at h
          cases h
        | error e₀ => exact ⟨e₀, rfl⟩
      · exact absurd hxen hen
    · exact hfail (k, v) hx hk hxen

def failingSource : DataSourceB :=
  { name := "polygon", enabled := true,
    getRealTimeQuote := fun _ => .error "connection refused",
    getStockData := fun _ _ _ _ => .error "connection refused" }

def backupBar : StockData :=
  { symbol := "AAPL", timestamp := 1, openPrice := 100, high := 101, low := 99,
    close := 100, volume := 1000, vwap := 100, transactionID := "t1" }

def backupSource : DataSourceB :=
  { name := "backup", enabled := true,
    getRealTimeQuote := fun _ => .error "unused",
    getStockData := fun _ _ _ _ => .ok [backupBar] }

/-- Witness for C5: an always-failing primary plus an always-succeeding
secondary yields the secondary's bars with no error. -/
theorem get_stock_data_failover_witness :
    Manager.getStockData ⟨[("polygon", failingSource), ("backup", backupSource)],
      "polygon"⟩ "AAPL" "1d" 0 10 = .ok [backupBar] :=
  (get_stock_data_failover "AAPL" "1d" 0 10).1 "polygon" "backup" failingSource
    backupSource [backupBar] "connection refused" (by decide) rfl rfl rfl rfl
